import Mathlib

/-!
# Skylake CPU bring-up (`src/soc/intel/skylake/cpu.c`)

A shallow embedding of `cpu.c` (the power-limit code, the PCODE mailbox, the
per-core initialisation and the MP bring-up) and the properties of it that the
specification states.

Conventions of the embedding.

* Machine integers are `Nat`; a `u32` expression that can leave 32 bits is
  reduced with `u32`. The `u8` variables only ever hold table elements and the
  constant 28, so they need no reduction.
* A C array built from designated initialisers is the list of its
  `(index, value)` pairs: its size is the largest index plus one, an index
  with no initialiser holds 0, and a subscript outside the array is a fault
  (`Fault.array_index`), as is a shift whose count is not less than the width
  of the operand (`Fault.shift_count`) and a division by zero.
* Registers are named, not numbered: the addresses and the bit-field macros
  come from `soc/msr.h` and `soc/systemagent.h`, which are not part of the
  sources at hand, so the macros the code uses are the fields of `MsrDefs`.
* Register writes are recorded in order in `Machine.log`; `printk` output is
  not modelled, but the evaluation of its arguments is.
* The mailbox registers are volatile, so their reads are given by an oracle
  indexed by the number of the read (`Mailbox`).
* `soc_init_cpus` is modelled by the sequence of the calls it makes (`Call`);
  a function whose address is passed is a `Func`.
* The flight plan executor of MP bring-up is not among the sources; its
  barrier rule is modelled from the specification as an interleaving of the
  `begin` and `finish` events of the cores (`flight_step`).
-/

namespace Skylake

/-! ## Machine integers and faults -/

/-- Reduction of a value to an unsigned 32-bit integer. -/
def u32 (x : Nat) : Nat := x % 2 ^ 32

/-- The ways an expression of the C code can be undefined. -/
inductive Fault where
  | array_index
  | shift_count
  | div_by_zero
  | signed_overflow
deriving DecidableEq, Repr

/-- The 64-bit register value of `rdmsr`/`wrmsr`, as its two 32-bit words. -/
structure msr_t where
  lo : Nat
  hi : Nat
deriving DecidableEq, Repr

/-! ## Arrays with designated initialisers -/

/-- The `ARRAY_SIZE` of an array declared without a length from designated
initialisers: one more than the largest initialised index. -/
def ARRAY_SIZE (inits : List (Nat × Nat)) : Nat :=
  inits.foldl (fun m p => max m (p.1 + 1)) 0

/-- The element stored at index `i`: the initialiser when there is one, 0
otherwise. Meaningful for `i < ARRAY_SIZE inits`. -/
def element (inits : List (Nat × Nat)) (i : Nat) : Nat :=
  (inits.lookup i).getD 0

/-- The subscript expression `a[i]`: a fault outside the array. -/
def index (inits : List (Nat × Nat)) (i : Nat) : Except Fault Nat :=
  if i < ARRAY_SIZE inits then .ok (element inits i) else .error .array_index

/-- Whether index `i` has an explicit initialiser. -/
def hasEntry (inits : List (Nat × Nat)) (i : Nat) : Bool :=
  (inits.lookup i).isSome

/-- Convert time in seconds to POWER_LIMIT_1_TIME MSR value (cpu.c:48-75). -/
def power_limit_time_sec_to_msr : List (Nat × Nat) :=
  [ (0, 0x00), (1, 0x0a), (2, 0x0b), (3, 0x4b), (4, 0x0c), (5, 0x2c),
    (6, 0x4c), (7, 0x6c), (8, 0x0d), (10, 0x2d), (12, 0x4d), (14, 0x6d),
    (16, 0x0e), (20, 0x2e), (24, 0x4e), (28, 0x6e), (32, 0x0f), (40, 0x2f),
    (48, 0x4f), (56, 0x6f), (64, 0x10), (80, 0x30), (96, 0x50), (112, 0x70),
    (128, 0x11) ]

/-- Convert POWER_LIMIT_1_TIME MSR value to seconds (cpu.c:77-104). -/
def power_limit_time_msr_to_sec : List (Nat × Nat) :=
  [ (0x00, 0), (0x0a, 1), (0x0b, 2), (0x4b, 3), (0x0c, 4), (0x2c, 5),
    (0x4c, 6), (0x6c, 7), (0x0d, 8), (0x2d, 10), (0x4d, 12), (0x6d, 14),
    (0x0e, 16), (0x2e, 20), (0x4e, 24), (0x6e, 28), (0x0f, 32), (0x2f, 40),
    (0x4f, 48), (0x6f, 56), (0x10, 64), (0x30, 80), (0x50, 96), (0x70, 112),
    (0x11, 128) ]

/-- The durations that have an explicit entry in `power_limit_time_sec_to_msr`,
in increasing order. -/
def representable : List Nat := power_limit_time_sec_to_msr.map Prod.fst

/-- The encoding the code uses for a duration in the table's domain. -/
def encode (d : Nat) : Nat := element power_limit_time_sec_to_msr d

/-- The duration the code reads back from an encoding in the decode table's
domain. -/
def decode (v : Nat) : Nat := element power_limit_time_msr_to_sec v

/-! ## Registers -/

/-- The model-specific registers `cpu.c` names. `mcg_cap_msr` is the register
the code addresses as 0x179, and `IA32_MC0_STATUS offset` the register at
address `IA32_MC0_STATUS + offset`; as the registers are named, not numbered,
the machine-check bank registers are taken to be none of the other registers
named here. -/
inductive Msr where
  | MSR_PLATFORM_INFO
  | MSR_PKG_POWER_SKU_UNIT
  | MSR_PKG_POWER_SKU
  | MSR_PKG_POWER_LIMIT
  | MSR_DDR_RAPL_LIMIT
  | MSR_CONFIG_TDP_NOMINAL
  | MSR_TURBO_ACTIVATION_RATIO
  | MTRRcap_MSR
  | mcg_cap_msr
  | IA32_MC0_STATUS (offset : Nat)
  | MSR_PIC_MSG_CONTROL
  | IA32_MISC_ENABLE
  | IA32_THERM_INTERRUPT
  | IA32_PACKAGE_THERM_INTERRUPT
  | MSR_TEMPERATURE_TARGET
  | IA32_PLATFORM_DCA_CAP
  | IA32_ENERGY_PERFORMANCE_BIAS
deriving DecidableEq, Repr

/-- The memory-mapped MCHBAR registers `cpu.c` names. -/
inductive Mchbar where
  | MCH_PKG_POWER_LIMIT_LO
  | MCH_PKG_POWER_LIMIT_HI
  | MCH_DDR_POWER_LIMIT_LO
  | MCH_DDR_POWER_LIMIT_HI
  | BIOS_MAILBOX_DATA
  | BIOS_MAILBOX_INTERFACE
deriving DecidableEq, Repr

/-- A register write, as recorded in the log. -/
inductive Write where
  | wrmsr (r : Msr) (v : msr_t)
  | mchbar32 (r : Mchbar) (v : Nat)
deriving DecidableEq, Repr

/-- The register state and the writes made so far, oldest first. -/
structure Machine where
  msr : Msr → msr_t
  mchbar : Mchbar → Nat
  log : List Write

/-- Read a model-specific register. -/
def rdmsr (s : Machine) (r : Msr) : msr_t := s.msr r

/-- Write a model-specific register. -/
def wrmsr (s : Machine) (r : Msr) (v : msr_t) : Machine :=
  { s with msr := fun q => if q = r then v else s.msr q, log := s.log ++ [Write.wrmsr r v] }

/-- Read a 32-bit MCHBAR register. -/
def MCHBAR32_read (s : Machine) (r : Mchbar) : Nat := s.mchbar r

/-- Write a 32-bit MCHBAR register. -/
def MCHBAR32_write (s : Machine) (r : Mchbar) (v : Nat) : Machine :=
  { s with mchbar := fun q => if q = r then v else s.mchbar q,
           log := s.log ++ [Write.mchbar32 r v] }

/-- The bit-field macros of `soc/msr.h` that `set_power_limits` uses. The
header is not among the sources, so their values are parameters. -/
structure MsrDefs where
  PLATFORM_INFO_SET_TDP : Nat
  PKG_POWER_LIMIT_MASK : Nat
  PKG_POWER_LIMIT_EN : Nat
  PKG_POWER_LIMIT_TIME_MASK : Nat
  PKG_POWER_LIMIT_TIME_SHIFT : Nat

/-- The values the macros have in upstream coreboot: a 15-bit power field,
the enable bit right above it, and a 7-bit time field from bit 17. -/
def upstream : MsrDefs where
  PLATFORM_INFO_SET_TDP := 1 <<< 29
  PKG_POWER_LIMIT_MASK := 0x7fff
  PKG_POWER_LIMIT_EN := 1 <<< 15
  PKG_POWER_LIMIT_TIME_MASK := 0x7f
  PKG_POWER_LIMIT_TIME_SHIFT := 17

/-- The layout of one half of the power-limit register that the properties
about its fields rely on. -/
def MsrDefs.layout (c : MsrDefs) : Prop :=
  c.PKG_POWER_LIMIT_MASK = 0x7fff ∧ c.PKG_POWER_LIMIT_EN = 0x8000 ∧
  c.PKG_POWER_LIMIT_TIME_MASK = 0x7f ∧ c.PKG_POWER_LIMIT_TIME_SHIFT = 17

instance (c : MsrDefs) : Decidable c.layout := by
  unfold MsrDefs.layout; infer_instance

/-! ## `cpu_config_tdp_levels` and `set_power_limits` -/

/-- Left shift of a 32-bit operand: undefined when the count is not less
than 32. -/
def shl32 (x count : Nat) : Except Fault Nat :=
  if count < 32 then .ok (u32 (x <<< count)) else .error .shift_count

/-- Unsigned division: undefined when the divisor is 0. -/
def udiv (x y : Nat) : Except Fault Nat :=
  if y = 0 then .error .div_by_zero else .ok (x / y)

/-- Bits 34:33 of the platform-info register: how many configurable-TDP
levels are supported (cpu.c:218-225). -/
def cpu_config_tdp_levels (s : Machine) : Nat :=
  let platform_info := rdmsr s Msr.MSR_PLATFORM_INFO
  (platform_info.hi >>> 1) &&& 3

/-- The range check on the requested window (cpu.c:239-240). -/
def check_time (power_limit_1_time : Nat) : Nat :=
  if power_limit_1_time > ARRAY_SIZE power_limit_time_sec_to_msr then 28
  else power_limit_1_time

/-- The window after the comparison with the decoded SKU maximum
(cpu.c:258-259); `sec` is `power_limit_time_msr_to_sec[max_time]`. -/
def effective_time (sec power_limit_1_time : Nat) : Nat :=
  if sec > power_limit_1_time then sec else power_limit_1_time

/-- The two clamping statements on `tdp` (cpu.c:261-265). -/
def clamp_tdp (tdp min_power max_power : Nat) : Nat :=
  let tdp := if min_power > 0 ∧ tdp < min_power then min_power else tdp
  if max_power > 0 ∧ tdp > max_power then max_power else tdp

/-- The long-term half `limit.lo` (cpu.c:270-274). -/
def limit_lo (c : MsrDefs) (tdp power_limit_1_val : Nat) : Nat :=
  let lo := 0
  let lo := lo ||| (tdp &&& c.PKG_POWER_LIMIT_MASK)
  let lo := lo ||| c.PKG_POWER_LIMIT_EN
  lo ||| u32 ((power_limit_1_val &&& c.PKG_POWER_LIMIT_TIME_MASK) <<<
    c.PKG_POWER_LIMIT_TIME_SHIFT)

/-- The short-term half `limit.hi` (cpu.c:277-279). -/
def limit_hi (c : MsrDefs) (tdp : Nat) : Nat :=
  let hi := 0
  let hi := hi ||| ((u32 (tdp * 125) / 100) &&& c.PKG_POWER_LIMIT_MASK)
  hi ||| c.PKG_POWER_LIMIT_EN

/-- Configure processor power limits if possible (cpu.c:231-300). The
argument is the `u8` parameter `power_limit_1_time`. The shift count
`(msr.lo & 0xf) - 1` is an unsigned subtraction, so a unit field of 0 gives
the count 2^32 - 1; `power_unit` is used only as the divisor in the argument
of the `printk`. -/
def set_power_limits (c : MsrDefs) (s : Machine) (power_limit_1_time : Nat) :
    Except Fault Machine :=
  let msr := rdmsr s Msr.MSR_PLATFORM_INFO
  let power_limit_1_time := check_time power_limit_1_time
  if msr.lo &&& c.PLATFORM_INFO_SET_TDP = 0 then .ok s else
  -- Get units
  let msr := rdmsr s Msr.MSR_PKG_POWER_SKU_UNIT
  (shl32 2 (u32 ((msr.lo &&& 0xf) + (2 ^ 32 - 1)))).bind fun power_unit =>
  -- Get power defaults for this SKU
  let msr := rdmsr s Msr.MSR_PKG_POWER_SKU
  let tdp := msr.lo &&& 0x7fff
  let min_power := (msr.lo >>> 16) &&& 0x7fff
  let max_power := msr.hi &&& 0x7fff
  let max_time := (msr.hi >>> 16) &&& 0x7f
  -- the argument of the printk
  (udiv tdp power_unit).bind fun _ =>
  (index power_limit_time_msr_to_sec max_time).bind fun sec =>
  let power_limit_1_time := effective_time sec power_limit_1_time
  let tdp := clamp_tdp tdp min_power max_power
  (index power_limit_time_sec_to_msr power_limit_1_time).bind fun power_limit_1_val =>
  let limit : msr_t := ⟨limit_lo c tdp power_limit_1_val, limit_hi c tdp⟩
  let s := wrmsr s Msr.MSR_PKG_POWER_LIMIT limit
  -- Set power limit values in MCHBAR as well
  let s := MCHBAR32_write s Mchbar.MCH_PKG_POWER_LIMIT_LO limit.lo
  let s := MCHBAR32_write s Mchbar.MCH_PKG_POWER_LIMIT_HI limit.hi
  -- Set DDR RAPL power limit by copying from MMIO to MSR
  let msr : msr_t := ⟨MCHBAR32_read s Mchbar.MCH_DDR_POWER_LIMIT_LO,
                      MCHBAR32_read s Mchbar.MCH_DDR_POWER_LIMIT_HI⟩
  let s := wrmsr s Msr.MSR_DDR_RAPL_LIMIT msr
  -- Use nominal TDP values for CPUs with configurable TDP
  if cpu_config_tdp_levels s ≠ 0 then
    let msr := rdmsr s Msr.MSR_CONFIG_TDP_NOMINAL
    let limit : msr_t := ⟨msr.lo &&& 0xff, 0⟩
    .ok (wrmsr s Msr.MSR_TURBO_ACTIVATION_RATIO limit)
  else .ok s

/-- The writes a run adds to the log: what follows the writes that were
already there. -/
def newWrites (s s' : Machine) : List Write := s'.log.drop s.log.length

/-- The value of the first write to model-specific register `r` in a list of
writes. -/
def firstWrmsr (r : Msr) : List Write → Option msr_t
  | [] => none
  | Write.wrmsr q v :: ws => if q = r then some v else firstWrmsr r ws
  | Write.mchbar32 _ _ :: ws => firstWrmsr r ws

/-- The value of the first write to MCHBAR register `r` in a list of
writes. -/
def firstMchbar (r : Mchbar) : List Write → Option Nat
  | [] => none
  | Write.wrmsr _ _ :: ws => firstMchbar r ws
  | Write.mchbar32 q v :: ws => if q = r then some v else firstMchbar r ws

/-- The `tdp` field of the SKU power register (cpu.c:251). -/
def sku_tdp (s : Machine) : Nat := (rdmsr s Msr.MSR_PKG_POWER_SKU).lo &&& 0x7fff

/-- The `min_power` field of the SKU power register (cpu.c:252). -/
def sku_min_power (s : Machine) : Nat :=
  ((rdmsr s Msr.MSR_PKG_POWER_SKU).lo >>> 16) &&& 0x7fff

/-- The `max_power` field of the SKU power register (cpu.c:253). -/
def sku_max_power (s : Machine) : Nat := (rdmsr s Msr.MSR_PKG_POWER_SKU).hi &&& 0x7fff

/-- The `max_time` field of the SKU power register (cpu.c:254). -/
def sku_max_time (s : Machine) : Nat :=
  ((rdmsr s Msr.MSR_PKG_POWER_SKU).hi >>> 16) &&& 0x7f

/-- The unit field of the power-unit register (cpu.c:247). -/
def sku_unit_field (s : Machine) : Nat := (rdmsr s Msr.MSR_PKG_POWER_SKU_UNIT).lo &&& 0xf

/-- The conditions under which `set_power_limits` programs the limits with
every expression on its way defined: the programmable-TDP capability bit is
set, the unit field is not 0 (so that the shift count `field - 1` does not
wrap), `max_time` is inside the decode table, and the requested window is not
the encode table's size. -/
def Programs (c : MsrDefs) (s : Machine) (power_limit_1_time : Nat) : Prop :=
  (rdmsr s Msr.MSR_PLATFORM_INFO).lo &&& c.PLATFORM_INFO_SET_TDP ≠ 0 ∧
  sku_unit_field s ≠ 0 ∧
  sku_max_time s < ARRAY_SIZE power_limit_time_msr_to_sec ∧
  power_limit_1_time ≠ ARRAY_SIZE power_limit_time_sec_to_msr

instance (c : MsrDefs) (s : Machine) (t : Nat) : Decidable (Programs c s t) := by
  unfold Programs; infer_instance

/-- The power-limit register value a run writes, when the run is defined and
writes one. -/
def pkg_limit_written (c : MsrDefs) (s : Machine) (power_limit_1_time : Nat) :
    Option msr_t :=
  match set_power_limits c s power_limit_1_time with
  | .ok s' => firstWrmsr Msr.MSR_PKG_POWER_LIMIT (newWrites s s')
  | .error _ => none

/-- The writes of a run, when the run is defined. -/
def writes (c : MsrDefs) (s : Machine) (power_limit_1_time : Nat) : Option (List Write) :=
  match set_power_limits c s power_limit_1_time with
  | .ok s' => some (newWrites s s')
  | .error _ => none

/-- The machine state with one model-specific register replaced. -/
def withMsr (s : Machine) (r : Msr) (v : msr_t) : Machine :=
  { s with msr := fun q => if q = r then v else s.msr q }

/-- A machine state given by its platform-info, power-unit and SKU power
registers; every other register reads 0 and nothing has been written. -/
def machine (platform_info sku_unit sku : msr_t) : Machine where
  msr := fun r =>
    match r with
    | Msr.MSR_PLATFORM_INFO => platform_info
    | Msr.MSR_PKG_POWER_SKU_UNIT => sku_unit
    | Msr.MSR_PKG_POWER_SKU => sku
    | _ => ⟨0, 0⟩
  mchbar := fun _ => 0
  log := []

/-- A SKU power register built from its four fields. -/
def sku_register (tdp min_power max_power max_time : Nat) : msr_t :=
  ⟨tdp ||| (min_power <<< 16), max_power ||| (max_time <<< 16)⟩

/-- A machine state with the programmable-TDP bit set (as upstream defines
it), a power unit of 1/8 W and the given SKU fields. -/
def sample (tdp min_power max_power max_time : Nat) : Machine :=
  machine ⟨1 <<< 29, 0⟩ ⟨3, 0⟩ (sku_register tdp min_power max_power max_time)

/-! ## The PCODE mailbox: `pcode_ready` and `calibrate_24mhz_bclk` -/

/-- The mailbox macros of `soc/systemagent.h` that the calibration code uses.
The header is not among the sources, so their values are parameters. -/
structure MailboxDefs where
  MAILBOX_RUN_BUSY : Nat
  MAILBOX_BIOS_CMD_FSM_MEASURE_INTVL : Nat
  MAILBOX_BIOS_CMD_READ_CALIBRATION : Nat

/-- The values the mailbox macros have in upstream coreboot. -/
def upstream_mailbox : MailboxDefs where
  MAILBOX_RUN_BUSY := 1 <<< 31
  MAILBOX_BIOS_CMD_FSM_MEASURE_INTVL := 0x909
  MAILBOX_BIOS_CMD_READ_CALIBRATION := 0x509

/-- The mailbox as the code sees it. The two registers are volatile: what the
n-th read of a register returns is given by `interface n` and `data n`,
whatever was written before, so that every behaviour of the embedded
controller is covered. The state counts the reads made so far and records the
arguments of `udelay` and the register writes, oldest first. -/
structure Mailbox where
  interface : Nat → Nat
  data : Nat → Nat
  reads : Nat
  data_reads : Nat
  delays : List Nat
  writes : List Write

/-- Read `MCHBAR32(BIOS_MAILBOX_INTERFACE)`. -/
def Mailbox.read_interface (m : Mailbox) : Nat × Mailbox :=
  (m.interface m.reads, { m with reads := m.reads + 1 })

/-- Read `MCHBAR32(BIOS_MAILBOX_DATA)`. -/
def Mailbox.read_data (m : Mailbox) : Nat × Mailbox :=
  (m.data m.data_reads, { m with data_reads := m.data_reads + 1 })

/-- Assign to a mailbox register. -/
def Mailbox.write (m : Mailbox) (r : Mchbar) (v : Nat) : Mailbox :=
  { m with writes := m.writes ++ [Write.mchbar32 r v] }

/-- Call `udelay`. -/
def Mailbox.udelay (m : Mailbox) (usecs : Nat) : Mailbox :=
  { m with delays := m.delays ++ [usecs] }

/-- The constant `delay_step` of `pcode_ready` (cpu.c:114). -/
def delay_step : Nat := 10

/-- The do-while loop of `pcode_ready` (cpu.c:117-122), entered with the
current `wait_count`. The first argument is fuel for the recursion; the value
is `none` only when the fuel runs out. -/
def pcode_ready_loop (c : MailboxDefs) : Nat → Int → Mailbox → Option (Int × Mailbox)
  | 0, _, _ => none
  | fuel + 1, wait_count, m =>
    let (v, m) := m.read_interface
    if v &&& c.MAILBOX_RUN_BUSY = 0 then some (0, m)
    else
      let wait_count := wait_count + delay_step
      let m := m.udelay delay_step
      if wait_count < 1000 then pcode_ready_loop c fuel wait_count m
      else some (-1, m)

/-- Wait for the mailbox to be ready (cpu.c:111-125). Every iteration adds
`delay_step` to `wait_count` and the loop is left at 1000, so a fuel of 1000
is never used up (`pcode_ready_total`). -/
def pcode_ready (c : MailboxDefs) (m : Mailbox) : Option (Int × Mailbox) :=
  pcode_ready_loop c 1000 0 m

/-- Calibrate the 100MHz BCLK against the 24MHz BCLK (cpu.c:127-162). The
value `~0` assigned to the data register is the 32-bit word 0xffffffff. -/
def calibrate_24mhz_bclk (c : MailboxDefs) (m : Mailbox) : Option Mailbox :=
  (pcode_ready c m).bind fun (r, m) =>
  if r < 0 then some m else
  -- A non-zero value initiates the PCODE calibration.
  let m := m.write Mchbar.BIOS_MAILBOX_DATA 0xffffffff
  let m := m.write Mchbar.BIOS_MAILBOX_INTERFACE
    (c.MAILBOX_RUN_BUSY ||| c.MAILBOX_BIOS_CMD_FSM_MEASURE_INTVL)
  (pcode_ready c m).bind fun (r, m) =>
  if r < 0 then some m else
  let (v, m) := m.read_interface
  let _err_code := v &&& 0xff
  -- Read the calibrated value.
  let m := m.write Mchbar.BIOS_MAILBOX_INTERFACE
    (c.MAILBOX_RUN_BUSY ||| c.MAILBOX_BIOS_CMD_READ_CALIBRATION)
  (pcode_ready c m).bind fun (r, m) =>
  if r < 0 then some m else
  let (_, m) := m.read_data
  some m

/-- The busy bit is set at each of the next `n` reads of the command
register. -/
def busy_at_next (c : MailboxDefs) (m : Mailbox) (n : Nat) : Prop :=
  ∀ i < n, m.interface (m.reads + i) &&& c.MAILBOX_RUN_BUSY ≠ 0

instance (c : MailboxDefs) (m : Mailbox) (n : Nat) : Decidable (busy_at_next c m n) := by
  unfold busy_at_next; infer_instance

/-- The busy bit is first seen clear at the `k`-th of the next reads of the
command register (counted from 1). -/
def first_clear_at (c : MailboxDefs) (m : Mailbox) (k : Nat) : Prop :=
  1 ≤ k ∧ busy_at_next c m (k - 1) ∧ m.interface (m.reads + (k - 1)) &&& c.MAILBOX_RUN_BUSY = 0

instance (c : MailboxDefs) (m : Mailbox) (k : Nat) : Decidable (first_clear_at c m k) := by
  unfold first_clear_at; infer_instance

/-- The mailbox state after `n` more reads of the command register, the
first `d` of them followed by a delay of `delay_step`. -/
def Mailbox.polled (m : Mailbox) (n d : Nat) : Mailbox :=
  { m with reads := m.reads + n, delays := m.delays ++ List.replicate d delay_step }

/-- A mailbox whose command register reads `busy` for the first `n` reads
and 0 from then on, with nothing read, delayed or written so far. -/
def mailbox_busy_for (busy n : Nat) : Mailbox where
  interface := fun i => if i < n then busy else 0
  data := fun _ => 0
  reads := 0
  data_reads := 0
  delays := []
  writes := []

/-! ## MP bring-up: `mp_steps` and `soc_init_cpus` -/

/-- The build options `cpu.c` tests with `IS_ENABLED`. -/
structure Config where
  CONFIG_SMP : Bool
  CONFIG_HAVE_SMI_HANDLER : Bool
deriving DecidableEq, Repr

/-- The functions `cpu.c` passes by address. -/
inductive Func where
  | relocate_and_load_microcode
  | mp_initialize_cpu
  | enable_smis
  | adjust_apic_id_ht_disabled
  | cpu_core_init
deriving DecidableEq, Repr

/-- The flight record of `cpu/x86/mp.h`: the barrier value the record starts
with, and the function and argument for the application cores and for the
bootstrap core. A null pointer is `none`. -/
structure mp_flight_record where
  barrier : Nat
  ap_call : Option Func
  ap_arg : Option Nat
  bsp_call : Option Func
  bsp_arg : Option Nat
deriving DecidableEq, Repr

/-- Modelled from the spec: the macro `MP_FLIGHT_RECORD` of `cpu/x86/mp.h`,
which is not among the sources. A phase of the flight plan carries a blocking
tag and an action per kind of core; as upstream defines the macro, its
arguments are the barrier value, then function and argument for the
application cores, then function and argument for the bootstrap core. -/
def MP_FLIGHT_RECORD (barrier : Nat) (ap_func : Option Func) (ap_arg : Option Nat)
    (func : Option Func) (func_arg : Option Nat) : mp_flight_record :=
  ⟨barrier, ap_func, ap_arg, func, func_arg⟩

/-- Modelled from the spec: the macro `MP_FR_BLOCK_APS` of `cpu/x86/mp.h`, a
phase tagged blocking: the application cores are held at its barrier (barrier
value 0) until the bootstrap core releases them. -/
def MP_FR_BLOCK_APS (ap_func : Option Func) (ap_arg : Option Nat) (func : Option Func)
    (func_arg : Option Nat) : mp_flight_record :=
  MP_FLIGHT_RECORD 0 ap_func ap_arg func func_arg

/-- Modelled from the spec: the macro `MP_FR_NOBLOCK_APS` of `cpu/x86/mp.h`, a
phase tagged non-blocking: its barrier is released from the start (barrier
value 1). -/
def MP_FR_NOBLOCK_APS (ap_func : Option Func) (ap_arg : Option Nat) (func : Option Func)
    (func_arg : Option Nat) : mp_flight_record :=
  MP_FLIGHT_RECORD 1 ap_func ap_arg func func_arg

/-- Whether a flight record is tagged blocking. -/
def mp_flight_record.blocking (r : mp_flight_record) : Bool := r.barrier = 0

/-- The parameters handed to `mp_init` (`struct mp_params`). The flight plan
pointer is modelled by the records from the pointed one on. -/
structure mp_params where
  num_cpus : Int
  parallel_microcode_load : Int
  adjust_apic_id : Option Func
  flight_plan : List mp_flight_record
  num_records : Nat
  microcode_pointer : Nat
deriving DecidableEq, Repr

/-- The log levels `soc_init_cpus` prints at. -/
inductive Loglevel where
  | BIOS_DEBUG
  | BIOS_CRIT
  | BIOS_ERR
deriving DecidableEq, Repr

/-- The calls `soc_init_cpus` and the functions of the flight plan make, with
the arguments that matter. Each call of `printk` is identified by its level. -/
inductive Call where
  | printk (level : Loglevel)
  | x86_setup_fixed_mtrrs
  | x86_setup_var_mtrrs (address_bits above4gb : Nat)
  | x86_mtrr_check
  | initialize_vr_config
  | calibrate_24mhz_bclk
  | intel_microcode_find
  | backup_default_smm_area
  | smm_initialize
  | mp_init (p : mp_params)
  | set_max_ratio
  | set_power_limits (power_limit_1_time : Nat)
  | restore_default_smm_area (smm_save_area : Nat)
  | smm_relocate
  | intel_microcode_load_unlocked (microcode_patch : Nat)
  | southbridge_smm_enable_smi
  | smm_lock
deriving DecidableEq, Repr

/-- What the collaborators of `soc_init_cpus` return in one run: the value of
the core/thread-count register, `cpuid_eax(0x80000008)`, the microcode pointer
found, the address of the saved SMM area, and the statuses of `smm_initialize`
and `mp_init`. -/
structure Collaborators where
  core_thread_count : msr_t
  cpuid_eax_80000008 : Nat
  intel_microcode_find : Nat
  backup_default_smm_area : Nat
  smm_initialize : Int
  mp_init : Int
deriving DecidableEq, Repr

/-- The largest value of the C type `int`. -/
def INT_MAX : Int := 2 ^ 31 - 1

/-- The smallest value of the C type `int`. -/
def INT_MIN : Int := -(2 ^ 31)

/-- The remap of logical ids with hyperthreading disabled (cpu.c:466-469):
`2 * index` in `int` arithmetic, undefined when it overflows. -/
def adjust_apic_id_ht_disabled (index _apic_id : Int) : Except Fault Int :=
  if INT_MIN ≤ 2 * index ∧ 2 * index ≤ INT_MAX then .ok (2 * index)
  else .error Fault.signed_overflow

/-- The calls of `relocate_and_load_microcode` (cpu.c:471-478), given the
global `microcode_patch`. -/
def relocate_and_load_microcode (microcode_patch : Nat) : List Call :=
  [Call.smm_relocate, Call.intel_microcode_load_unlocked microcode_patch]

/-- The calls of `enable_smis` (cpu.c:480-492). -/
def enable_smis (cfg : Config) : List Call :=
  [Call.southbridge_smm_enable_smi] ++
  (if cfg.CONFIG_HAVE_SMI_HANDLER then [Call.smm_lock] else [])

/-- The flight plan `mp_steps` (cpu.c:494-502). -/
def mp_steps (cfg : Config) : List mp_flight_record :=
  [MP_FR_NOBLOCK_APS (some Func.relocate_and_load_microcode) none
    (some Func.relocate_and_load_microcode) none] ++
  (if cfg.CONFIG_SMP then
    [MP_FR_BLOCK_APS (some Func.mp_initialize_cpu) none (some Func.mp_initialize_cpu) none]
   else []) ++
  [MP_FR_BLOCK_APS none none (some Func.enable_smis) none]

/-- The `init` member of `cpu_dev_ops` (cpu.c:504-507). -/
def cpu_dev_ops_init : Func := Func.cpu_core_init

/-- The calls of `bsp_init_before_ap_bringup` (cpu.c:425-434). -/
def bsp_init_before_ap_bringup (env : Collaborators) : List Call :=
  [ Call.x86_setup_fixed_mtrrs,
    Call.x86_setup_var_mtrrs (env.cpuid_eax_80000008 &&& 0xff) 2,
    Call.x86_mtrr_check,
    Call.initialize_vr_config,
    Call.calibrate_24mhz_bclk ]

/-- What a run of `soc_init_cpus` leaves: the globals `ht_disabled` and
`microcode_patch`, the `mp_params` it filled in, and the calls it made, in
order. -/
structure InitResult where
  ht_disabled : Int
  microcode_patch : Nat
  mp_params : mp_params
  calls : List Call
deriving DecidableEq, Repr

/-- The bring-up of the CPUs (cpu.c:520-576). -/
def soc_init_cpus (cfg : Config) (env : Collaborators) : InitResult :=
  let msr := env.core_thread_count
  let num_threads : Int := ((msr.lo >>> 0) &&& 0xffff : Nat)
  let num_cores : Int := ((msr.lo >>> 16) &&& 0xffff : Nat)
  let calls := [Call.printk Loglevel.BIOS_DEBUG]
  let ht_disabled : Int := if num_threads = num_cores then 1 else 0
  -- Perform any necessary BSP initialization before APs are brought up.
  let calls := calls ++ bsp_init_before_ap_bringup env
  let calls := calls ++ [Call.intel_microcode_find]
  let microcode_patch := env.intel_microcode_find
  -- Save default SMM area before relocation occurs.
  let calls := if cfg.CONFIG_HAVE_SMI_HANDLER then calls ++ [Call.backup_default_smm_area]
    else calls
  let smm_save_area := if cfg.CONFIG_HAVE_SMI_HANDLER then env.backup_default_smm_area else 0
  let p : mp_params :=
    { num_cpus := num_threads
      parallel_microcode_load := 1
      adjust_apic_id :=
        if ht_disabled ≠ 0 then some Func.adjust_apic_id_ht_disabled else none
      flight_plan := (mp_steps cfg).drop 0
      num_records := (mp_steps cfg).length
      microcode_pointer := microcode_patch }
  -- Load relocation and permanent handlers. Then initiate relocation.
  let calls := calls ++ [Call.smm_initialize]
  let calls := if env.smm_initialize ≠ 0 then calls ++ [Call.printk Loglevel.BIOS_CRIT]
    else calls
  let calls := if cfg.CONFIG_SMP then
      let calls := calls ++ [Call.mp_init p]
      if env.mp_init ≠ 0 then calls ++ [Call.printk Loglevel.BIOS_ERR] else calls
    else calls
  -- Set Max Ratio
  let calls := calls ++ [Call.set_max_ratio]
  -- Restore the default SMM region.
  let calls := if cfg.CONFIG_HAVE_SMI_HANDLER then
      calls ++ [Call.restore_default_smm_area smm_save_area]
    else calls
  { ht_disabled := ht_disabled, microcode_patch := microcode_patch, mp_params := p,
    calls := calls }

/-- How often a run calls `set_power_limits`. -/
def count_set_power_limits (calls : List Call) : Nat :=
  (calls.filter fun c => match c with
    | Call.set_power_limits _ => true
    | _ => false).length

/-- The calls that follow the call of `mp_init`, when there is one. -/
def after_mp_init : List Call → Option (List Call)
  | [] => none
  | Call.mp_init _ :: rest => some rest
  | _ :: rest => after_mp_init rest

/-- A run on a part with `threads` threads and `cores` cores, with the given
statuses of `smm_initialize` and `mp_init`. -/
def sample_run (threads cores : Nat) (smm_status mp_status : Int) : Collaborators where
  core_thread_count := ⟨threads ||| (cores <<< 16), 0⟩
  cpuid_eax_80000008 := 0x3027
  intel_microcode_find := 0x1000
  backup_default_smm_area := 0x2000
  smm_initialize := smm_status
  mp_init := mp_status

/-! ## `soc_skip_ucode_update` and the per-core initialisation -/

/-- The macros of `soc/msr.h` and `cpu/intel/turbo.h` that the per-core code
uses. The headers are not among the sources, so their values are parameters. -/
structure CpuDefs where
  PRMRR_SUPPORTED : Nat
  ENERGY_POLICY_NORMAL : Nat

/-- The values the macros have in upstream coreboot. -/
def upstream_cpu : CpuDefs where
  PRMRR_SUPPORTED := 1 <<< 12
  ENERGY_POLICY_NORMAL := 6

/-- The bitwise complement `~x` of a 32-bit word. -/
def not32 (x : Nat) : Nat := u32 (2 ^ 32 - 1 - x)

/-- Whether the microcode update can be skipped (cpu.c:578-589). The
arguments are `u32`, and `new_patch_id - 1` is an unsigned subtraction. -/
def soc_skip_ucode_update (d : CpuDefs) (s : Machine) (current_patch_id new_patch_id : Nat) :
    Int :=
  let msr := rdmsr s Msr.MTRRcap_MSR
  if msr.lo &&& d.PRMRR_SUPPORTED ≠ 0 ∧ current_patch_id = u32 (new_patch_id + (2 ^ 32 - 1))
  then 1 else 0

/-- The inputs of the per-core initialisation that are not registers: the
`ecx` results of `cpuid(1)` and `cpuid(6)`, and the member `tcc_offset` of the
chip configuration. -/
structure CoreInputs where
  cpuid_1_ecx : Nat
  cpuid_6_ecx : Nat
  tcc_offset : Nat
deriving DecidableEq, Repr

/-- Set the TCC activation offset if supported (cpu.c:302-316). -/
def configure_thermal_target (i : CoreInputs) (s : Machine) : Machine :=
  let msr := rdmsr s Msr.MSR_PLATFORM_INFO
  if msr.lo &&& (1 <<< 30) ≠ 0 ∧ i.tcc_offset ≠ 0 then
    let msr := rdmsr s Msr.MSR_TEMPERATURE_TARGET
    let msr : msr_t := { msr with lo := msr.lo &&& not32 (0xf <<< 24) }
    let msr : msr_t := { msr with lo := msr.lo ||| u32 ((i.tcc_offset &&& 0xf) <<< 24) }
    wrmsr s Msr.MSR_TEMPERATURE_TARGET msr
  else s

/-- Enable fast strings, thermal monitoring and SpeedStep, disable the
thermal interrupts and enable the package critical interrupt
(cpu.c:318-337). -/
def configure_misc (s : Machine) : Machine :=
  let msr := rdmsr s Msr.IA32_MISC_ENABLE
  let msr : msr_t := { msr with lo := msr.lo ||| (1 <<< 0) }
  let msr : msr_t := { msr with lo := msr.lo ||| (1 <<< 3) }
  let msr : msr_t := { msr with lo := msr.lo ||| (1 <<< 16) }
  let s := wrmsr s Msr.IA32_MISC_ENABLE msr
  -- Disable Thermal interrupts
  let msr : msr_t := ⟨0, 0⟩
  let s := wrmsr s Msr.IA32_THERM_INTERRUPT msr
  -- Enable package critical interrupt only
  let msr : msr_t := ⟨1 <<< 4, 0⟩
  wrmsr s Msr.IA32_PACKAGE_THERM_INTERRUPT msr

/-- Enable APIC TPR updates (cpu.c:339-346). -/
def enable_lapic_tpr (s : Machine) : Machine :=
  let msr := rdmsr s Msr.MSR_PIC_MSG_CONTROL
  let msr : msr_t := { msr with lo := msr.lo &&& not32 (1 <<< 10) }
  wrmsr s Msr.MSR_PIC_MSG_CONTROL msr

/-- Enable Direct Cache Access when CPUID reports it (cpu.c:348-360). -/
def configure_dca_cap (i : CoreInputs) (s : Machine) : Machine :=
  if i.cpuid_1_ecx &&& (1 <<< 18) ≠ 0 then
    let msr := rdmsr s Msr.IA32_PLATFORM_DCA_CAP
    let msr : msr_t := { msr with lo := msr.lo ||| 1 }
    wrmsr s Msr.IA32_PLATFORM_DCA_CAP msr
  else s

/-- Set the energy policy when CPUID reports the feature (cpu.c:387-404). -/
def set_energy_perf_bias (i : CoreInputs) (policy : Nat) (s : Machine) : Machine :=
  let ecx := i.cpuid_6_ecx
  if ecx &&& (1 <<< 3) = 0 then s else
  let msr := rdmsr s Msr.IA32_ENERGY_PERFORMANCE_BIAS
  let msr : msr_t := { msr with lo := msr.lo &&& not32 0xf }
  let msr : msr_t := { msr with lo := msr.lo ||| (policy &&& 0xf) }
  wrmsr s Msr.IA32_ENERGY_PERFORMANCE_BIAS msr

/-- Clear the status register of every machine-check bank (cpu.c:406-423). -/
def configure_mca (s : Machine) : Machine :=
  let msr := rdmsr s Msr.mcg_cap_msr
  let num_banks := msr.lo &&& 0xff
  let msr : msr_t := ⟨0, 0⟩
  (List.range num_banks).foldl (fun s i => wrmsr s (Msr.IA32_MC0_STATUS (i * 4)) msr) s

/-- The register steps of `cpu_core_init` (cpu.c:436-460), in its order. The
calls of `setup_lapic` and `enable_turbo`, whose code is not among the
sources, are not part of this function. -/
def cpu_core_init (d : CpuDefs) (i : CoreInputs) (s : Machine) : Machine :=
  -- Clear out pending MCEs
  let s := configure_mca s
  -- Enable the local cpu apics
  let s := enable_lapic_tpr s
  -- Configure Enhanced SpeedStep and Thermal Sensors
  let s := configure_misc s
  -- Thermal throttle activation offset
  let s := configure_thermal_target i s
  -- Enable Direct Cache Access
  let s := configure_dca_cap i s
  -- Set energy policy
  set_energy_perf_bias i d.ENERGY_POLICY_NORMAL s

/-- The register state `cpu_core_init` leaves, as a function of the register
state it starts from. -/
def core_effect (d : CpuDefs) (i : CoreInputs) (f : Msr → msr_t) (r : Msr) : msr_t :=
  match r with
  | Msr.IA32_MC0_STATUS offset =>
    if offset % 4 = 0 ∧ offset / 4 < (f Msr.mcg_cap_msr).lo &&& 0xff then ⟨0, 0⟩ else f r
  | Msr.MSR_PIC_MSG_CONTROL => { f r with lo := (f r).lo &&& not32 (1 <<< 10) }
  | Msr.IA32_MISC_ENABLE =>
    { f r with lo := (f r).lo ||| (1 <<< 0) ||| (1 <<< 3) ||| (1 <<< 16) }
  | Msr.IA32_THERM_INTERRUPT => ⟨0, 0⟩
  | Msr.IA32_PACKAGE_THERM_INTERRUPT => ⟨1 <<< 4, 0⟩
  | Msr.MSR_TEMPERATURE_TARGET =>
    if (f Msr.MSR_PLATFORM_INFO).lo &&& (1 <<< 30) ≠ 0 ∧ i.tcc_offset ≠ 0 then
      { f r with lo := (f r).lo &&& not32 (0xf <<< 24) ||| u32 ((i.tcc_offset &&& 0xf) <<< 24) }
    else f r
  | Msr.IA32_PLATFORM_DCA_CAP =>
    if i.cpuid_1_ecx &&& (1 <<< 18) ≠ 0 then { f r with lo := (f r).lo ||| 1 } else f r
  | Msr.IA32_ENERGY_PERFORMANCE_BIAS =>
    if i.cpuid_6_ecx &&& (1 <<< 3) = 0 then f r
    else { f r with lo := (f r).lo &&& not32 0xf ||| (d.ENERGY_POLICY_NORMAL &&& 0xf) }
  | _ => f r

/-- A machine state given by its registers, with nothing written so far. -/
def machine_of (msr : Msr → msr_t) : Machine where
  msr := msr
  mchbar := fun _ => 0
  log := []

/-- A register file in which every register reads `v`. -/
def all_registers (v : msr_t) : Msr → msr_t := fun _ => v

/-- The register state after the loop of `configure_mca` has cleared `n`
banks. -/
def mca_cleared (n : Nat) (f : Msr → msr_t) (r : Msr) : msr_t :=
  match r with
  | Msr.IA32_MC0_STATUS offset => if offset % 4 = 0 ∧ offset / 4 < n then ⟨0, 0⟩ else f r
  | _ => f r

/-! ## The flight plan executor -/

/-- Modelled from the spec: the state of one logical core in the
dispatch-and-barrier loop of MP bring-up (`mp_init`, whose code is not among
the sources): the index of the phase the core is at, every earlier phase being
completed, and whether it has begun the action of that phase. -/
structure CoreState where
  phase : Nat
  running : Bool
deriving DecidableEq, Repr

/-- Modelled from the spec: what a core can do in the flight plan executor of
MP bring-up, which is not among the sources: begin the action of the phase it
is at, or complete it. The cores run in parallel, so an execution is any
interleaving of these events. -/
inductive FlightEvent where
  | begin (core : Nat)
  | finish (core : Nat)
deriving DecidableEq, Repr

/-- Whether phase `i` of a plan, given by its blocking tags, is blocking. -/
def phase_blocking (plan : List Bool) (i : Nat) : Bool := plan.getD i false

/-- A core has begun the action of phase `p`. -/
def CoreState.begun (st : CoreState) (p : Nat) : Bool :=
  decide (p < st.phase) || (decide (st.phase = p) && st.running)

/-- A core has completed phase `p`. -/
def CoreState.completed (st : CoreState) (p : Nat) : Bool := decide (p < st.phase)

/-- Modelled from the spec: the transition rule of the flight plan executor
of MP bring-up, which is not among the sources. The barrier of a blocking phase
releases the next phase only once every participating core has completed it,
and a blocking phase waits for the stragglers of the phase before it; a
non-blocking phase after a non-blocking phase is begun without waiting. So a
core may begin phase `p` when every core has completed the phases before `p`,
or when neither `p` nor the phase before it is blocking. -/
def gate_open (plan : List Bool) (cores : List CoreState) (p : Nat) : Bool :=
  cores.all (fun c => decide (p ≤ c.phase)) ||
  (decide (p ≠ 0) && !phase_blocking plan (p - 1) && !phase_blocking plan p)

/-- Modelled from the spec: one event of the flight plan executor of MP
bring-up, which is not among the sources. A core that is not running and has a
phase left begins it when the gate is open; a running core completes its phase
and moves to the next. An event that is not possible gives `none`. -/
def flight_step (plan : List Bool) (cores : List CoreState) :
    FlightEvent → Option (List CoreState)
  | FlightEvent.begin c =>
    match cores.get? c with
    | some st =>
      if !st.running && decide (st.phase < plan.length) && gate_open plan cores st.phase then
        some (cores.set c { st with running := true })
      else none
    | none => none
  | FlightEvent.finish c =>
    match cores.get? c with
    | some st => if st.running then some (cores.set c ⟨st.phase + 1, false⟩) else none
    | none => none

/-- Modelled from the spec: an execution of the flight plan executor of MP
bring-up, which is not among the sources, as the sequence of its events. -/
def flight_run (plan : List Bool) (cores : List CoreState) :
    List FlightEvent → Option (List CoreState)
  | [] => some cores
  | e :: es => (flight_step plan cores e).bind fun cs => flight_run plan cs es

/-- Modelled from the spec: the start of the flight plan executor of MP
bring-up, which is not among the sources: each of the `n` participating cores
is at the first phase and has not begun it. -/
def flight_init (n : Nat) : List CoreState := List.replicate n ⟨0, false⟩

/-- The blocking tags of the flight plan `mp_steps`. -/
def mp_steps_blocking (cfg : Config) : List Bool :=
  (mp_steps cfg).map mp_flight_record.blocking

/-! ## Bit fields of the power-limit register -/

theorem u32_of_lt {x : Nat} (h : x < 2 ^ 32) : u32 x = x := Nat.mod_eq_of_lt h

theorem time_field_lt (v : Nat) : (v &&& 0x7f) <<< 17 < 2 ^ 32 := by
  have h : v &&& 0x7f ≤ 0x7f := Nat.and_le_right
  rw [Nat.shiftLeft_eq]
  calc (v &&& 0x7f) * 2 ^ 17 ≤ 0x7f * 2 ^ 17 := Nat.mul_le_mul_right _ h
    _ < 2 ^ 32 := by norm_num

/-- The power field of a long-term half is the masked power value. -/
theorem lo_power_field (a v : Nat) :
    ((a &&& 0x7fff) ||| 0x8000 ||| ((v &&& 0x7f) <<< 17)) &&& 0x7fff = a &&& 0x7fff := by
  apply Nat.eq_of_testBit_eq; intro i
  have h1 : (0x7fff : Nat) = 2 ^ 15 - 1 := by norm_num
  have h2 : (0x8000 : Nat) = 2 ^ 15 := by norm_num
  have h3 : (0x7f : Nat) = 2 ^ 7 - 1 := by norm_num
  rw [h1, h2, h3]
  simp only [Nat.testBit_and, Nat.testBit_or, Nat.testBit_shiftLeft,
    Nat.testBit_two_pow_sub_one, Nat.testBit_two_pow]
  by_cases h : i < 15
  · have e1 : ¬ (15 = i) := by omega
    have e2 : ¬ (i ≥ 17) := by omega
    simp [h, e1, e2]
  · simp [h]

/-- The time field of a long-term half is the masked encoding. -/
theorem lo_time_field (a v : Nat) :
    (((a &&& 0x7fff) ||| 0x8000 ||| ((v &&& 0x7f) <<< 17)) >>> 17) &&& 0x7f = v &&& 0x7f := by
  apply Nat.eq_of_testBit_eq; intro i
  have h1 : (0x7fff : Nat) = 2 ^ 15 - 1 := by norm_num
  have h2 : (0x8000 : Nat) = 2 ^ 15 := by norm_num
  have h3 : (0x7f : Nat) = 2 ^ 7 - 1 := by norm_num
  rw [h1, h2, h3]
  simp only [Nat.testBit_and, Nat.testBit_or, Nat.testBit_shiftLeft, Nat.testBit_shiftRight,
    Nat.testBit_two_pow_sub_one, Nat.testBit_two_pow]
  have e1 : ¬ (17 + i < 15) := by omega
  have e2 : ¬ (15 = 17 + i) := by omega
  have e3 : 17 + i ≥ 17 := by omega
  simp [e1, e2, e3]

/-- The enable bit of a long-term half is set. -/
theorem lo_enable_bit (a w : Nat) : ((a &&& 0x7fff) ||| 0x8000 ||| w) &&& 0x8000 = 0x8000 := by
  apply Nat.eq_of_testBit_eq; intro i
  have h2 : (0x8000 : Nat) = 2 ^ 15 := by norm_num
  rw [h2]
  simp only [Nat.testBit_and, Nat.testBit_or, Nat.testBit_two_pow]
  by_cases h : 15 = i <;> simp [h]

/-- The power field of a short-term half is the masked power value. -/
theorem hi_power_field (a : Nat) : ((a &&& 0x7fff) ||| 0x8000) &&& 0x7fff = a &&& 0x7fff := by
  apply Nat.eq_of_testBit_eq; intro i
  have h1 : (0x7fff : Nat) = 2 ^ 15 - 1 := by norm_num
  have h2 : (0x8000 : Nat) = 2 ^ 15 := by norm_num
  rw [h1, h2]
  simp only [Nat.testBit_and, Nat.testBit_or, Nat.testBit_two_pow_sub_one, Nat.testBit_two_pow]
  by_cases h : i < 15
  · have e1 : ¬ (15 = i) := by omega
    simp [h, e1]
  · simp [h]

/-- The enable bit of a short-term half is set. -/
theorem hi_enable_bit (a : Nat) : ((a &&& 0x7fff) ||| 0x8000) &&& 0x8000 = 0x8000 := by
  apply Nat.eq_of_testBit_eq; intro i
  have h2 : (0x8000 : Nat) = 2 ^ 15 := by norm_num
  rw [h2]
  simp only [Nat.testBit_and, Nat.testBit_or, Nat.testBit_two_pow]
  by_cases h : 15 = i <;> simp [h]

theorem and_7fff_of_lt {x : Nat} (h : x < 2 ^ 15) : x &&& 0x7fff = x := by
  have h1 : (0x7fff : Nat) = 2 ^ 15 - 1 := by norm_num
  rw [h1, Nat.and_pow_two_sub_one_eq_mod, Nat.mod_eq_of_lt h]

theorem and_7fff_lt (x : Nat) : x &&& 0x7fff < 2 ^ 15 :=
  Nat.and_lt_two_pow x (by norm_num)

/-! ## The run of `set_power_limits` -/

theorem clamp_tdp_lt {tdp min_power max_power : Nat} (h : tdp < 2 ^ 15)
    (hmin : min_power < 2 ^ 15) (hmax : max_power < 2 ^ 15) :
    clamp_tdp tdp min_power max_power < 2 ^ 15 := by
  unfold clamp_tdp
  simp only
  split_ifs <;> assumption

/-- The unit computation is defined and nonzero for a nonzero unit field. -/
theorem power_unit_defined (x : Nat) (h : x &&& 0xf ≠ 0) :
    ∃ pu, shl32 2 (u32 ((x &&& 0xf) + (2 ^ 32 - 1))) = .ok pu ∧ pu ≠ 0 := by
  have hle : x &&& 0xf ≤ 0xf := Nat.and_le_right
  generalize x &&& 0xf = f at h hle
  interval_cases f
  · exact absurd rfl h
  all_goals exact ⟨_, rfl, by decide⟩


theorem ARRAY_SIZE_sec_to_msr : ARRAY_SIZE power_limit_time_sec_to_msr = 129 := by decide

theorem ARRAY_SIZE_msr_to_sec : ARRAY_SIZE power_limit_time_msr_to_sec = 113 := by decide

theorem element_le (inits : List (Nat × Nat)) (B i : Nat) (h : ∀ p ∈ inits, p.2 ≤ B) :
    element inits i ≤ B := by
  unfold element
  induction inits with
  | nil => simp
  | cons p ps ih =>
    obtain ⟨k, v⟩ := p
    simp only [List.lookup]
    split
    · simpa using h (k, v) (List.mem_cons_self _ _)
    · exact ih (fun q hq => h q (List.mem_cons_of_mem _ hq))

theorem decode_le (m : Nat) : decode m ≤ 128 :=
  element_le _ 128 m (by decide)

theorem effective_time_lt {m t : Nat} (ht : t ≠ 129) :
    effective_time (decode m) (check_time t) < 129 := by
  have hd := decode_le m
  unfold effective_time check_time
  rw [ARRAY_SIZE_sec_to_msr]
  split_ifs <;> omega

theorem index_ok {inits : List (Nat × Nat)} {i : Nat} (h : i < ARRAY_SIZE inits) :
    index inits i = .ok (element inits i) := by
  unfold index
  rw [if_pos h]

theorem udiv_ok (x : Nat) {y : Nat} (h : y ≠ 0) : udiv x y = .ok (x / y) := by
  unfold udiv
  rw [if_neg h]

/-- When the limits are programmed, the run is defined and writes the
power-limit register, its two shadow registers and the DDR limit, and then the
turbo activation ratio when configurable-TDP levels are reported. -/
theorem set_power_limits_run (c : MsrDefs) (s : Machine) (t : Nat) (h : Programs c s t) :
    ∃ s', set_power_limits c s t = .ok s' ∧
      newWrites s s' =
        [ Write.wrmsr Msr.MSR_PKG_POWER_LIMIT
            ⟨limit_lo c (clamp_tdp (sku_tdp s) (sku_min_power s) (sku_max_power s))
              (encode (effective_time (decode (sku_max_time s)) (check_time t))),
             limit_hi c (clamp_tdp (sku_tdp s) (sku_min_power s) (sku_max_power s))⟩,
          Write.mchbar32 Mchbar.MCH_PKG_POWER_LIMIT_LO
            (limit_lo c (clamp_tdp (sku_tdp s) (sku_min_power s) (sku_max_power s))
              (encode (effective_time (decode (sku_max_time s)) (check_time t)))),
          Write.mchbar32 Mchbar.MCH_PKG_POWER_LIMIT_HI
            (limit_hi c (clamp_tdp (sku_tdp s) (sku_min_power s) (sku_max_power s))),
          Write.wrmsr Msr.MSR_DDR_RAPL_LIMIT
            ⟨s.mchbar Mchbar.MCH_DDR_POWER_LIMIT_LO, s.mchbar Mchbar.MCH_DDR_POWER_LIMIT_HI⟩ ] ++
        (if cpu_config_tdp_levels s ≠ 0 then
          [Write.wrmsr Msr.MSR_TURBO_ACTIVATION_RATIO
            ⟨(s.msr Msr.MSR_CONFIG_TDP_NOMINAL).lo &&& 0xff, 0⟩]
         else []) := by
  obtain ⟨hcap, hunit, hmax, ht⟩ := h
  rw [ARRAY_SIZE_sec_to_msr] at ht
  obtain ⟨pu, hpu, hpu0⟩ := power_unit_defined _ hunit
  have hidx := effective_time_lt (m := sku_max_time s) ht
  rw [← ARRAY_SIZE_sec_to_msr] at hidx
  have h1 := index_ok hmax
  have h2 := index_ok hidx
  have h3 : ∀ x, udiv x pu = .ok (x / pu) := fun x => udiv_ok x hpu0
  unfold sku_max_time at h1
  unfold set_power_limits
  dsimp only
  rw [if_neg hcap, hpu]
  simp only [Except.bind, h3, h1]
  unfold decode sku_max_time at h2
  rw [h2]
  simp only [Except.bind]
  split
  · next hc =>
    have hc' : cpu_config_tdp_levels s ≠ 0 := hc
    rw [if_pos hc']
    refine ⟨_, rfl, ?_⟩
    simp [newWrites, wrmsr, MCHBAR32_write, MCHBAR32_read, rdmsr, sku_tdp, sku_min_power,
      sku_max_power, sku_max_time, encode, decode]
  · next hc =>
    have hc' : ¬ cpu_config_tdp_levels s ≠ 0 := hc
    rw [if_neg hc']
    refine ⟨_, rfl, ?_⟩
    simp [newWrites, wrmsr, MCHBAR32_write, MCHBAR32_read, rdmsr, sku_tdp, sku_min_power,
      sku_max_power, sku_max_time, encode, decode]

/-- A requested window of 129 makes the run subscript the encode table outside
its bounds whenever it gets that far. -/
theorem window_129_faults (c : MsrDefs) (s : Machine)
    (hcap : (rdmsr s Msr.MSR_PLATFORM_INFO).lo &&& c.PLATFORM_INFO_SET_TDP ≠ 0)
    (hunit : sku_unit_field s ≠ 0)
    (hmax : sku_max_time s < ARRAY_SIZE power_limit_time_msr_to_sec) :
    set_power_limits c s 129 = .error Fault.array_index := by
  have hck : check_time 129 = 129 := by
    unfold check_time
    rw [ARRAY_SIZE_sec_to_msr, if_neg (by omega)]
  have hd := decode_le (sku_max_time s)
  have heff : effective_time (decode (sku_max_time s)) (check_time 129) = 129 := by
    rw [hck]
    unfold effective_time
    rw [if_neg (by omega)]
  have hout : ¬ (129 < ARRAY_SIZE power_limit_time_sec_to_msr) := by
    rw [ARRAY_SIZE_sec_to_msr]
    omega
  obtain ⟨pu, hpu, hpu0⟩ := power_unit_defined _ hunit
  have h1 := index_ok hmax
  have h3 : ∀ x, udiv x pu = .ok (x / pu) := fun x => udiv_ok x hpu0
  unfold sku_max_time at h1
  unfold decode sku_max_time at heff
  unfold set_power_limits
  dsimp only
  rw [if_neg hcap, hpu]
  simp only [Except.bind, h3, h1, heff]
  unfold index
  rw [if_neg hout]

/-- The run is defined and writes something exactly when `Programs` holds: the
conditions of `Programs` are what "the limits are programmed" means. -/
theorem programs_iff (c : MsrDefs) (s : Machine) (t : Nat) :
    (∃ s', set_power_limits c s t = .ok s' ∧ newWrites s s' ≠ []) ↔ Programs c s t := by
  constructor
  · rintro ⟨s', hrun, hne⟩
    by_contra hnot
    by_cases hcap : (rdmsr s Msr.MSR_PLATFORM_INFO).lo &&& c.PLATFORM_INFO_SET_TDP = 0
    · unfold set_power_limits at hrun
      dsimp only at hrun
      rw [if_pos hcap] at hrun
      cases hrun
      exact hne (by simp [newWrites])
    · by_cases hunit : sku_unit_field s = 0
      · unfold set_power_limits at hrun
        dsimp only at hrun
        unfold sku_unit_field at hunit
        rw [if_neg hcap, hunit] at hrun
        exact absurd hrun (by simp [shl32, u32, Except.bind])
      · by_cases hmax : sku_max_time s < ARRAY_SIZE power_limit_time_msr_to_sec
        · by_cases ht : t = ARRAY_SIZE power_limit_time_sec_to_msr
          · rw [ARRAY_SIZE_sec_to_msr] at ht
            subst ht
            rw [(window_129_faults c s hcap hunit hmax)] at hrun
            cases hrun
          · exact hnot ⟨hcap, hunit, hmax, ht⟩
        · obtain ⟨pu, hpu, hpu0⟩ := power_unit_defined _ hunit
          have h3 : ∀ x, udiv x pu = .ok (x / pu) := fun x => udiv_ok x hpu0
          unfold sku_max_time at hmax
          unfold set_power_limits at hrun
          dsimp only at hrun
          rw [if_neg hcap, hpu] at hrun
          simp only [Except.bind, h3, index, if_neg hmax] at hrun
          cases hrun
  · intro h
    obtain ⟨s', hrun, hw⟩ := set_power_limits_run c s t h
    exact ⟨s', hrun, by rw [hw]; simp⟩

/-- The power-limit register value written by a run that programs the limits. -/
theorem pkg_limit_written_eq (c : MsrDefs) (s : Machine) (t : Nat) (h : Programs c s t) :
    pkg_limit_written c s t = some
      ⟨limit_lo c (clamp_tdp (sku_tdp s) (sku_min_power s) (sku_max_power s))
        (encode (effective_time (decode (sku_max_time s)) (check_time t))),
       limit_hi c (clamp_tdp (sku_tdp s) (sku_min_power s) (sku_max_power s))⟩ := by
  obtain ⟨s', hrun, hw⟩ := set_power_limits_run c s t h
  unfold pkg_limit_written
  rw [hrun]
  simp only [hw]
  simp [firstWrmsr]

theorem limit_lo_power_field {c : MsrDefs} (hc : c.layout) (a v : Nat) :
    limit_lo c a v &&& c.PKG_POWER_LIMIT_MASK = a &&& 0x7fff := by
  obtain ⟨h1, h2, h3, h4⟩ := hc
  unfold limit_lo
  simp only [h1, h2, h3, h4, Nat.zero_or, u32_of_lt (time_field_lt v)]
  exact lo_power_field a v

theorem limit_lo_time_field {c : MsrDefs} (hc : c.layout) (a v : Nat) :
    (limit_lo c a v >>> c.PKG_POWER_LIMIT_TIME_SHIFT) &&& c.PKG_POWER_LIMIT_TIME_MASK =
      v &&& 0x7f := by
  obtain ⟨h1, h2, h3, h4⟩ := hc
  unfold limit_lo
  simp only [h1, h2, h3, h4, Nat.zero_or, u32_of_lt (time_field_lt v)]
  exact lo_time_field a v

theorem limit_lo_enable {c : MsrDefs} (hc : c.layout) (a v : Nat) :
    limit_lo c a v &&& c.PKG_POWER_LIMIT_EN = c.PKG_POWER_LIMIT_EN := by
  obtain ⟨h1, h2, h3, h4⟩ := hc
  unfold limit_lo
  simp only [h1, h2, h3, h4, Nat.zero_or]
  exact lo_enable_bit a _

theorem limit_hi_power_field {c : MsrDefs} (hc : c.layout) (a : Nat) :
    limit_hi c a &&& c.PKG_POWER_LIMIT_MASK = (u32 (a * 125) / 100) &&& 0x7fff := by
  obtain ⟨h1, h2, h3, h4⟩ := hc
  unfold limit_hi
  simp only [h1, h2, Nat.zero_or]
  exact hi_power_field _

theorem limit_hi_enable {c : MsrDefs} (hc : c.layout) (a : Nat) :
    limit_hi c a &&& c.PKG_POWER_LIMIT_EN = c.PKG_POWER_LIMIT_EN := by
  obtain ⟨h1, h2, h3, h4⟩ := hc
  unfold limit_hi
  simp only [h1, h2, Nat.zero_or]
  exact hi_enable_bit _

theorem sku_tdp_lt (s : Machine) : sku_tdp s < 2 ^ 15 := and_7fff_lt _

theorem sku_min_power_lt (s : Machine) : sku_min_power s < 2 ^ 15 := and_7fff_lt _

theorem sku_max_power_lt (s : Machine) : sku_max_power s < 2 ^ 15 := and_7fff_lt _

theorem clamped_lt (s : Machine) :
    clamp_tdp (sku_tdp s) (sku_min_power s) (sku_max_power s) < 2 ^ 15 :=
  clamp_tdp_lt (sku_tdp_lt s) (sku_min_power_lt s) (sku_max_power_lt s)

/-! ## The duration tables -/

set_option maxRecDepth 1000000 in
/-- The encode table at the indices without an entry, by evaluation. -/
theorem unrepresentable_table : ∀ d < 129, hasEntry power_limit_time_sec_to_msr d = false →
    encode d = 0 ∧ 0 < d ∧
    ∃ r ∈ representable, d < r ∧ (∀ q ∈ representable, d ≤ q → r ≤ q) ∧
      decode (encode r) = r ∧ encode r ≠ encode d := by
  decide

/-- C1, counterexample: 9 seconds has no entry in the encode table and is
inside it; the code encodes it as 0x00, which decodes to 0 seconds, less than
9, although 10 is the smallest representable duration that is at least 9 and
its encoding is 0x2d. A run asked for 9 seconds writes what a run asked for 0
seconds writes, not what a run asked for 10 seconds writes. -/
theorem nine_seconds_encodes_as_zero :
    hasEntry power_limit_time_sec_to_msr 9 = false ∧
    index power_limit_time_sec_to_msr 9 = .ok 0x00 ∧
    index power_limit_time_msr_to_sec 0x00 = .ok 0 ∧
    ¬ (decode (encode 9) ≥ 9) ∧
    (10 ∈ representable ∧ 9 ≤ 10 ∧ ∀ r ∈ representable, 9 ≤ r → 10 ≤ r) ∧
    encode 10 = 0x2d ∧ encode 9 ≠ 0x2d ∧ encode 9 = encode 0 ∧
    pkg_limit_written upstream (sample 15000 0 0 0) 9 =
      pkg_limit_written upstream (sample 15000 0 0 0) 0 ∧
    pkg_limit_written upstream (sample 15000 0 0 0) 9 ≠
      pkg_limit_written upstream (sample 15000 0 0 0) 10 := by
  refine ⟨by decide, rfl, rfl, by decide, by decide, by decide, by decide, by decide, ?_, ?_⟩
  · rfl
  · decide

/-- C1, amended: every duration inside the encode table that has no entry of
its own is encoded as 0x00, the encoding of 0 seconds, and decodes to 0, which
is less than the duration; the smallest representable duration above it exists
and survives the round trip, but it is not what the duration resolves to. -/
theorem unrepresentable_encodes_as_zero (d : Nat)
    (hd : d < ARRAY_SIZE power_limit_time_sec_to_msr)
    (hh : hasEntry power_limit_time_sec_to_msr d = false) :
    index power_limit_time_sec_to_msr d = .ok 0x00 ∧
    index power_limit_time_msr_to_sec (encode d) = .ok 0 ∧
    decode (encode d) < d ∧
    ∃ r ∈ representable, d < r ∧ (∀ q ∈ representable, d ≤ q → r ≤ q) ∧
      decode (encode r) = r ∧ encode r ≠ encode d := by
  obtain ⟨h0, hpos, hr⟩ := unrepresentable_table d (by rw [← ARRAY_SIZE_sec_to_msr]; exact hd) hh
  have h0' : element power_limit_time_sec_to_msr d = 0 := h0
  refine ⟨by rw [index_ok hd, h0'], by rw [h0]; rfl, ?_, hr⟩
  rw [h0]
  exact hpos

/-- C1, amended, at 9 seconds. -/
theorem unrepresentable_encodes_as_zero_at_9 :
    index power_limit_time_sec_to_msr 9 = .ok 0x00 ∧
    index power_limit_time_msr_to_sec (encode 9) = .ok 0 ∧
    decode (encode 9) < 9 ∧
    ∃ r ∈ representable, 9 < r ∧ (∀ q ∈ representable, 9 ≤ q → r ≤ q) ∧
      decode (encode r) = r ∧ encode r ≠ encode 9 :=
  unrepresentable_encodes_as_zero 9 (by decide) (by decide)

/-- C2: each of the 25 directly representable durations is inside the encode
table, its encoding is inside the decode table, and decoding the encoding gives
the duration back. -/
theorem decode_encode_representable (d : Nat)
    (hd : d ∈ [0, 1, 2, 3, 4, 5, 6, 7, 8, 10, 12, 14, 16, 20, 24, 28, 32, 40, 48, 56, 64, 80,
      96, 112, 128]) :
    hasEntry power_limit_time_sec_to_msr d = true ∧
    (index power_limit_time_sec_to_msr d).bind (index power_limit_time_msr_to_sec) = .ok d ∧
    decode (encode d) = d := by
  have key : ∀ d ∈ [0, 1, 2, 3, 4, 5, 6, 7, 8, 10, 12, 14, 16, 20, 24, 28, 32, 40, 48, 56, 64,
      80, 96, 112, 128],
      hasEntry power_limit_time_sec_to_msr d = true ∧
      d < ARRAY_SIZE power_limit_time_sec_to_msr ∧
      encode d < ARRAY_SIZE power_limit_time_msr_to_sec ∧ decode (encode d) = d := by
    decide
  obtain ⟨h1, h2, h3, h4⟩ := key d hd
  refine ⟨h1, ?_, h4⟩
  rw [index_ok h2]
  show index power_limit_time_msr_to_sec (encode d) = .ok d
  rw [index_ok h3]
  exact congrArg Except.ok h4

/-- C2, at 28 seconds. -/
theorem decode_encode_representable_at_28 :
    hasEntry power_limit_time_sec_to_msr 28 = true ∧
    (index power_limit_time_sec_to_msr 28).bind (index power_limit_time_msr_to_sec) = .ok 28 ∧
    decode (encode 28) = 28 :=
  decode_encode_representable 28 (by decide)

/-! ## Clamping and the derived short-term limit -/

/-- C3, counterexample: with tdp 7 and the nonzero bounds min_power 10 and
max_power 5, the run writes 5 in the long-term power field, which is below
min_power: the field is not in [10, 5]. -/
theorem clamp_leaves_interval_when_min_above_max :
    sku_tdp (sample 7 10 5 0) = 7 ∧ sku_min_power (sample 7 10 5 0) = 10 ∧
    sku_max_power (sample 7 10 5 0) = 5 ∧
    (pkg_limit_written upstream (sample 7 10 5 0) 28).map
      (fun limit => limit.lo &&& upstream.PKG_POWER_LIMIT_MASK) = some 5 ∧
    ¬ (10 ≤ 5 ∧ 5 ≤ 5) := by
  decide

/-- C3, amended: when the limits are programmed and max_power is nonzero, the
long-term power field written is at most max_power; it is at least min_power,
hence in [min_power, max_power], when min_power is at most max_power, and it is
max_power when min_power is above max_power. -/
theorem long_term_power_clamped (c : MsrDefs) (s : Machine) (t : Nat) (hc : c.layout)
    (h : Programs c s t) (hmax : sku_max_power s ≠ 0) :
    ∃ limit, pkg_limit_written c s t = some limit ∧
      limit.lo &&& c.PKG_POWER_LIMIT_MASK ≤ sku_max_power s ∧
      (sku_min_power s ≤ sku_max_power s →
        sku_min_power s ≤ limit.lo &&& c.PKG_POWER_LIMIT_MASK) ∧
      (sku_max_power s < sku_min_power s →
        limit.lo &&& c.PKG_POWER_LIMIT_MASK = sku_max_power s) := by
  refine ⟨_, pkg_limit_written_eq c s t h, ?_⟩
  simp only [limit_lo_power_field hc, and_7fff_of_lt (clamped_lt s)]
  unfold clamp_tdp
  simp only
  refine ⟨?_, ?_, ?_⟩
  · split_ifs <;> omega
  · intro hle
    split_ifs <;> omega
  · intro hlt
    split_ifs <;> omega

/-- C3, amended, at tdp 7 with bounds 10 and 20 and at bounds 10 and 5. -/
theorem long_term_power_clamped_at_samples :
    (∃ limit, pkg_limit_written upstream (sample 7 10 20 0) 28 = some limit ∧
      limit.lo &&& upstream.PKG_POWER_LIMIT_MASK ≤ sku_max_power (sample 7 10 20 0) ∧
      (sku_min_power (sample 7 10 20 0) ≤ sku_max_power (sample 7 10 20 0) →
        sku_min_power (sample 7 10 20 0) ≤ limit.lo &&& upstream.PKG_POWER_LIMIT_MASK) ∧
      (sku_max_power (sample 7 10 20 0) < sku_min_power (sample 7 10 20 0) →
        limit.lo &&& upstream.PKG_POWER_LIMIT_MASK = sku_max_power (sample 7 10 20 0))) ∧
    sku_min_power (sample 7 10 20 0) ≤ sku_max_power (sample 7 10 20 0) :=
  ⟨long_term_power_clamped upstream (sample 7 10 20 0) 28 (by decide) (by decide) (by decide),
    by decide⟩

/-- C4, counterexample: with tdp 32767 and no bounds the long-term power field
is 32767 and the short-term power field is 8190, not floor(32767 * 125 / 100) =
40958. -/
theorem short_term_wraps_at_32767 :
    (pkg_limit_written upstream (sample 32767 0 0 0) 28).map
      (fun limit => (limit.lo &&& upstream.PKG_POWER_LIMIT_MASK,
        limit.hi &&& upstream.PKG_POWER_LIMIT_MASK)) = some (32767, 8190) ∧
    32767 * 125 / 100 = 40958 ∧ (8190 : Nat) ≠ 32767 * 125 / 100 := by
  decide

/-- C4, amended: when the limits are programmed, the short-term power field
written is floor(L * 125 / 100) reduced to the 15 bits of the power field,
where L is the long-term power field written; it is floor(L * 125 / 100)
itself exactly when that value fits in the field, that is when L is at most
26214. -/
theorem short_term_is_masked_ratio (c : MsrDefs) (s : Machine) (t : Nat) (hc : c.layout)
    (h : Programs c s t) :
    ∃ limit, pkg_limit_written c s t = some limit ∧
      limit.hi &&& c.PKG_POWER_LIMIT_MASK =
        ((limit.lo &&& c.PKG_POWER_LIMIT_MASK) * 125 / 100) &&& c.PKG_POWER_LIMIT_MASK ∧
      limit.hi &&& c.PKG_POWER_LIMIT_MASK =
        ((limit.lo &&& c.PKG_POWER_LIMIT_MASK) * 125 / 100) % 2 ^ 15 ∧
      (limit.hi &&& c.PKG_POWER_LIMIT_MASK = (limit.lo &&& c.PKG_POWER_LIMIT_MASK) * 125 / 100 ↔
        limit.lo &&& c.PKG_POWER_LIMIT_MASK ≤ 26214) := by
  refine ⟨_, pkg_limit_written_eq c s t h, ?_⟩
  have hlt := clamped_lt s
  simp only [limit_lo_power_field hc, limit_hi_power_field hc, and_7fff_of_lt hlt]
  generalize clamp_tdp (sku_tdp s) (sku_min_power s) (sku_max_power s) = L at hlt
  have hu : u32 (L * 125) = L * 125 := u32_of_lt (by omega)
  have hm : ∀ x : Nat, x &&& 0x7fff = x % 2 ^ 15 := fun x => by
    have h1 : (0x7fff : Nat) = 2 ^ 15 - 1 := by norm_num
    rw [h1, Nat.and_pow_two_sub_one_eq_mod]
  rw [hu, hc.1, hm]
  refine ⟨rfl, rfl, ?_⟩
  constructor
  · intro he
    by_contra hgt
    have : L * 125 / 100 % 2 ^ 15 < 2 ^ 15 := Nat.mod_lt _ (by norm_num)
    omega
  · intro hle
    exact Nat.mod_eq_of_lt (by omega)

/-- C4, amended, at tdp 15000. -/
theorem short_term_is_masked_ratio_at_15000 :
    ∃ limit, pkg_limit_written upstream (sample 15000 0 0 0) 28 = some limit ∧
      limit.hi &&& upstream.PKG_POWER_LIMIT_MASK =
        ((limit.lo &&& upstream.PKG_POWER_LIMIT_MASK) * 125 / 100) &&&
          upstream.PKG_POWER_LIMIT_MASK ∧
      limit.hi &&& upstream.PKG_POWER_LIMIT_MASK =
        ((limit.lo &&& upstream.PKG_POWER_LIMIT_MASK) * 125 / 100) % 2 ^ 15 ∧
      (limit.hi &&& upstream.PKG_POWER_LIMIT_MASK =
          (limit.lo &&& upstream.PKG_POWER_LIMIT_MASK) * 125 / 100 ↔
        limit.lo &&& upstream.PKG_POWER_LIMIT_MASK ≤ 26214) :=
  short_term_is_masked_ratio upstream (sample 15000 0 0 0) 28 (by decide) (by decide)

/-! ## The time window -/

theorem check_time_of_le {t : Nat} (h : t ≤ ARRAY_SIZE power_limit_time_sec_to_msr) :
    check_time t = t := by
  unfold check_time
  rw [if_neg (by omega)]

theorem check_time_of_gt {t : Nat} (h : ARRAY_SIZE power_limit_time_sec_to_msr < t) :
    check_time t = 28 := by
  unfold check_time
  rw [if_pos h]

theorem effective_time_eq_max (sec t : Nat) : effective_time sec t = max t sec := by
  unfold effective_time
  split_ifs <;> omega

set_option maxRecDepth 1000000 in
/-- The encode table on its domain, by evaluation: every encoding fits the
7-bit time field and is inside the decode table, and an entry decodes to its
index. -/
theorem encode_table : ∀ d < 129, encode d &&& 0x7f = encode d ∧
    encode d < ARRAY_SIZE power_limit_time_msr_to_sec ∧
    (hasEntry power_limit_time_sec_to_msr d = true → decode (encode d) = d) := by
  decide

set_option maxRecDepth 1000000 in
/-- The decode table on its domain, by evaluation: every decoded duration has
an entry in the encode table. -/
theorem decode_table : ∀ m < 113, hasEntry power_limit_time_sec_to_msr (decode m) = true := by
  decide

/-- C5, counterexample: asked for 9 seconds on a SKU whose max-time field 0x0d
decodes to 8 seconds, the code uses max(9, 8) = 9 as the effective time and
writes the time field 0x00, which decodes to 0 seconds, below the SKU floor of
8 seconds. -/
theorem window_below_sku_floor_at_9 :
    sku_max_time (sample 15000 0 0 0x0d) = 0x0d ∧ decode 0x0d = 8 ∧
    effective_time (decode 0x0d) (check_time 9) = 9 ∧
    (pkg_limit_written upstream (sample 15000 0 0 0x0d) 9).map
      (fun limit => (limit.lo >>> upstream.PKG_POWER_LIMIT_TIME_SHIFT) &&&
        upstream.PKG_POWER_LIMIT_TIME_MASK) = some 0x00 ∧
    decode 0x00 = 0 ∧ ¬ (decode 0x00 ≥ decode 0x0d) := by
  decide

/-- C5, amended: when the limits are programmed and the requested window t is
in the encode table's domain, the effective time is max(t, decode(max_time))
and the time field written is its encoding; when that effective time has an
entry in the encode table (as it has whenever t is at most decode(max_time))
the field decodes to the effective time, which is at least the SKU floor
decode(max_time). -/
theorem window_at_least_sku_floor (c : MsrDefs) (s : Machine) (t : Nat) (hc : c.layout)
    (h : Programs c s t) (ht : t < ARRAY_SIZE power_limit_time_sec_to_msr) :
    ∃ limit, pkg_limit_written c s t = some limit ∧
      effective_time (decode (sku_max_time s)) (check_time t) = max t (decode (sku_max_time s)) ∧
      (limit.lo >>> c.PKG_POWER_LIMIT_TIME_SHIFT) &&& c.PKG_POWER_LIMIT_TIME_MASK =
        encode (max t (decode (sku_max_time s))) ∧
      (hasEntry power_limit_time_sec_to_msr (max t (decode (sku_max_time s))) = true →
        decode ((limit.lo >>> c.PKG_POWER_LIMIT_TIME_SHIFT) &&& c.PKG_POWER_LIMIT_TIME_MASK) =
          max t (decode (sku_max_time s)) ∧
        decode (sku_max_time s) ≤
          decode ((limit.lo >>> c.PKG_POWER_LIMIT_TIME_SHIFT) &&& c.PKG_POWER_LIMIT_TIME_MASK)) ∧
      (t ≤ decode (sku_max_time s) →
        hasEntry power_limit_time_sec_to_msr (max t (decode (sku_max_time s))) = true) := by
  refine ⟨_, pkg_limit_written_eq c s t h, ?_⟩
  have hm : sku_max_time s < 113 := by
    have := h.2.2.1
    rwa [ARRAY_SIZE_msr_to_sec] at this
  have hd := decode_le (sku_max_time s)
  rw [ARRAY_SIZE_sec_to_msr] at ht
  have heff : effective_time (decode (sku_max_time s)) (check_time t) =
      max t (decode (sku_max_time s)) := by
    rw [check_time_of_le (by rw [ARRAY_SIZE_sec_to_msr]; omega), effective_time_eq_max]
  have hlt : max t (decode (sku_max_time s)) < 129 := by omega
  obtain ⟨e1, _, e3⟩ := encode_table _ hlt
  simp only [limit_lo_time_field hc, heff, e1]
  refine ⟨trivial, trivial, ?_, ?_⟩
  · intro hh
    rw [e3 hh]
    exact ⟨rfl, Nat.le_max_right _ _⟩
  · intro hle
    rw [Nat.max_eq_right hle]
    exact decode_table _ hm

/-- C5, amended, at a request of 10 seconds on a SKU floor of 8 seconds. -/
theorem window_at_least_sku_floor_at_10 :
    ∃ limit, pkg_limit_written upstream (sample 15000 0 0 0x0d) 10 = some limit ∧
      effective_time (decode (sku_max_time (sample 15000 0 0 0x0d))) (check_time 10) =
        max 10 (decode (sku_max_time (sample 15000 0 0 0x0d))) ∧
      (limit.lo >>> upstream.PKG_POWER_LIMIT_TIME_SHIFT) &&& upstream.PKG_POWER_LIMIT_TIME_MASK =
        encode (max 10 (decode (sku_max_time (sample 15000 0 0 0x0d)))) ∧
      (hasEntry power_limit_time_sec_to_msr
          (max 10 (decode (sku_max_time (sample 15000 0 0 0x0d)))) = true →
        decode ((limit.lo >>> upstream.PKG_POWER_LIMIT_TIME_SHIFT) &&&
            upstream.PKG_POWER_LIMIT_TIME_MASK) =
          max 10 (decode (sku_max_time (sample 15000 0 0 0x0d))) ∧
        decode (sku_max_time (sample 15000 0 0 0x0d)) ≤
          decode ((limit.lo >>> upstream.PKG_POWER_LIMIT_TIME_SHIFT) &&&
            upstream.PKG_POWER_LIMIT_TIME_MASK)) ∧
      (10 ≤ decode (sku_max_time (sample 15000 0 0 0x0d)) →
        hasEntry power_limit_time_sec_to_msr
          (max 10 (decode (sku_max_time (sample 15000 0 0 0x0d)))) = true) :=
  window_at_least_sku_floor upstream (sample 15000 0 0 0x0d) 10 (by decide) (by decide)
    (by decide)

/-- C6: the encode table has 129 entries; every 8-bit requested window above
129 is replaced by 28 before anything else is computed, so that the whole run
is the run for 28 seconds, and every window from 0 to 128 is left as it is by
the check. -/
theorem out_of_range_window_becomes_28 (c : MsrDefs) (s : Machine) (t : Nat) (ht : t < 256) :
    ARRAY_SIZE power_limit_time_sec_to_msr = 129 ∧
    (130 ≤ t → check_time t = 28 ∧ set_power_limits c s t = set_power_limits c s 28) ∧
    (t ≤ 128 → check_time t = t) := by
  refine ⟨ARRAY_SIZE_sec_to_msr, ?_, ?_⟩
  · intro h
    have h28 : check_time t = 28 := check_time_of_gt (by rw [ARRAY_SIZE_sec_to_msr]; omega)
    have h28' : check_time 28 = 28 := check_time_of_le (by rw [ARRAY_SIZE_sec_to_msr]; omega)
    refine ⟨h28, ?_⟩
    unfold set_power_limits
    rw [h28, h28']
  · intro h
    exact check_time_of_le (by rw [ARRAY_SIZE_sec_to_msr]; omega)

/-- C6, at the windows 200 and 100. -/
theorem out_of_range_window_becomes_28_at_200_and_100 :
    (check_time 200 = 28 ∧
      set_power_limits upstream (sample 15000 0 0 0) 200 =
        set_power_limits upstream (sample 15000 0 0 0) 28) ∧
    check_time 100 = 100 :=
  ⟨(out_of_range_window_becomes_28 upstream (sample 15000 0 0 0) 200 (by decide)).2.1
      (by decide),
    (out_of_range_window_becomes_28 upstream (sample 15000 0 0 0) 100 (by decide)).2.2
      (by decide)⟩

/-- C7: a requested window of 129, the size of the encode table, passes the
range check unchanged; whenever the run gets as far as the encode table (the
capability bit set, the unit field nonzero, max_time inside the decode table)
it subscripts the table with 129, outside its 129 entries. -/
theorem window_129_reads_past_encode_table (c : MsrDefs) (s : Machine)
    (hcap : (rdmsr s Msr.MSR_PLATFORM_INFO).lo &&& c.PLATFORM_INFO_SET_TDP ≠ 0)
    (hunit : sku_unit_field s ≠ 0)
    (hmax : sku_max_time s < ARRAY_SIZE power_limit_time_msr_to_sec) :
    check_time 129 = 129 ∧
    effective_time (decode (sku_max_time s)) (check_time 129) = 129 ∧
    ¬ (129 < ARRAY_SIZE power_limit_time_sec_to_msr) ∧
    set_power_limits c s 129 = .error Fault.array_index := by
  have hck : check_time 129 = 129 := check_time_of_le (by rw [ARRAY_SIZE_sec_to_msr])
  have hd := decode_le (sku_max_time s)
  refine ⟨hck, ?_, ?_, window_129_faults c s hcap hunit hmax⟩
  · rw [hck, effective_time_eq_max]
    omega
  · rw [ARRAY_SIZE_sec_to_msr]
    omega

/-- C7, at a SKU with tdp 15000, no bounds and a max-time field of 0. -/
theorem window_129_reads_past_encode_table_at_sample :
    check_time 129 = 129 ∧
    effective_time (decode (sku_max_time (sample 15000 0 0 0))) (check_time 129) = 129 ∧
    ¬ (129 < ARRAY_SIZE power_limit_time_sec_to_msr) ∧
    set_power_limits upstream (sample 15000 0 0 0) 129 = .error Fault.array_index :=
  window_129_reads_past_encode_table upstream (sample 15000 0 0 0) (by decide) (by decide)
    (by decide)

/-! ## The words written -/

theorem programs_withMsr_unit {c : MsrDefs} {s : Machine} {t : Nat} (h : Programs c s t)
    (u : msr_t) (hu : u.lo &&& 0xf ≠ 0) :
    Programs c (withMsr s Msr.MSR_PKG_POWER_SKU_UNIT u) t := by
  obtain ⟨h1, _, h3, h4⟩ := h
  exact ⟨h1, hu, h3, h4⟩

/-- The writes of a run that programs the limits. -/
theorem writes_eq (c : MsrDefs) (s : Machine) (t : Nat) (h : Programs c s t) :
    writes c s t = some
      ([ Write.wrmsr Msr.MSR_PKG_POWER_LIMIT
            ⟨limit_lo c (clamp_tdp (sku_tdp s) (sku_min_power s) (sku_max_power s))
              (encode (effective_time (decode (sku_max_time s)) (check_time t))),
             limit_hi c (clamp_tdp (sku_tdp s) (sku_min_power s) (sku_max_power s))⟩,
          Write.mchbar32 Mchbar.MCH_PKG_POWER_LIMIT_LO
            (limit_lo c (clamp_tdp (sku_tdp s) (sku_min_power s) (sku_max_power s))
              (encode (effective_time (decode (sku_max_time s)) (check_time t)))),
          Write.mchbar32 Mchbar.MCH_PKG_POWER_LIMIT_HI
            (limit_hi c (clamp_tdp (sku_tdp s) (sku_min_power s) (sku_max_power s))),
          Write.wrmsr Msr.MSR_DDR_RAPL_LIMIT
            ⟨s.mchbar Mchbar.MCH_DDR_POWER_LIMIT_LO, s.mchbar Mchbar.MCH_DDR_POWER_LIMIT_HI⟩ ] ++
        (if cpu_config_tdp_levels s ≠ 0 then
          [Write.wrmsr Msr.MSR_TURBO_ACTIVATION_RATIO
            ⟨(s.msr Msr.MSR_CONFIG_TDP_NOMINAL).lo &&& 0xff, 0⟩]
         else [])) := by
  obtain ⟨s', hrun, hw⟩ := set_power_limits_run c s t h
  unfold writes
  rw [hrun]
  simp only [hw]

/-- C8: for a SKU with tdp 15000 and no bounds, a requested window of 28 s and
a SKU max-time that decodes to at most 28 s, the run writes a long-term half
with power field 15000, the enable bit and the encoding 0x6e of 28 s, and a
short-term half equal to 18750 | enable; the writes are the same for every
other power unit the code can compute (every nonzero unit field). -/
theorem scenario_tdp_15000 (c : MsrDefs) (s : Machine) (hc : c.layout)
    (h : Programs c s 28) (htdp : sku_tdp s = 15000) (hmin : sku_min_power s = 0)
    (hmax : sku_max_power s = 0) (htime : decode (sku_max_time s) ≤ 28) :
    (∃ limit, pkg_limit_written c s 28 = some limit ∧
      limit.lo &&& c.PKG_POWER_LIMIT_MASK = 15000 ∧
      limit.lo &&& c.PKG_POWER_LIMIT_EN = c.PKG_POWER_LIMIT_EN ∧
      limit.lo = 15000 ||| c.PKG_POWER_LIMIT_EN ||| (0x6e <<< c.PKG_POWER_LIMIT_TIME_SHIFT) ∧
      limit.hi = 18750 ||| c.PKG_POWER_LIMIT_EN) ∧
    ∀ u : msr_t, u.lo &&& 0xf ≠ 0 →
      writes c (withMsr s Msr.MSR_PKG_POWER_SKU_UNIT u) 28 = writes c s 28 := by
  constructor
  · refine ⟨_, pkg_limit_written_eq c s 28 h, ?_⟩
    have hclamp : clamp_tdp (sku_tdp s) (sku_min_power s) (sku_max_power s) = 15000 := by
      rw [htdp, hmin, hmax]
      decide
    have heff : effective_time (decode (sku_max_time s)) (check_time 28) = 28 := by
      rw [check_time_of_le (by rw [ARRAY_SIZE_sec_to_msr]; omega), effective_time_eq_max]
      omega
    simp only [limit_lo_power_field hc, limit_lo_enable hc, hclamp, heff]
    obtain ⟨h1, h2, h3, h4⟩ := hc
    unfold limit_lo limit_hi
    simp only [h1, h2, h3, h4]
    decide
  · intro u hu
    rw [writes_eq c s 28 h, writes_eq c _ 28 (programs_withMsr_unit h u hu)]
    rfl

/-- C8, at the power unit 8 (unit field 3), compared with the unit field 8. -/
theorem scenario_tdp_15000_at_unit_8 :
    (∃ limit, pkg_limit_written upstream (sample 15000 0 0 0) 28 = some limit ∧
      limit.lo &&& upstream.PKG_POWER_LIMIT_MASK = 15000 ∧
      limit.lo &&& upstream.PKG_POWER_LIMIT_EN = upstream.PKG_POWER_LIMIT_EN ∧
      limit.lo = 15000 ||| upstream.PKG_POWER_LIMIT_EN |||
        (0x6e <<< upstream.PKG_POWER_LIMIT_TIME_SHIFT) ∧
      limit.hi = 18750 ||| upstream.PKG_POWER_LIMIT_EN) ∧
    writes upstream (withMsr (sample 15000 0 0 0) Msr.MSR_PKG_POWER_SKU_UNIT ⟨8, 0⟩) 28 =
      writes upstream (sample 15000 0 0 0) 28 :=
  ⟨(scenario_tdp_15000 upstream (sample 15000 0 0 0) (by decide) (by decide) (by decide)
      (by decide) (by decide) (by decide)).1,
    (scenario_tdp_15000 upstream (sample 15000 0 0 0) (by decide) (by decide) (by decide)
      (by decide) (by decide) (by decide)).2 ⟨8, 0⟩ (by decide)⟩

/-- C9: whenever the limits are programmed, the first three writes of the run
are the power-limit register and then its two shadow registers, the shadow
words being the low and high words written to the register, and nothing after
them writes any of the three again; the low word is
(tdp' & PKG_POWER_LIMIT_MASK) | PKG_POWER_LIMIT_EN |
((encode(effectiveTime) & PKG_POWER_LIMIT_TIME_MASK) << PKG_POWER_LIMIT_TIME_SHIFT)
for the clamped tdp', the shift being a 32-bit one, which loses nothing when
the time field lies inside the 32-bit word. -/
theorem long_term_word_and_shadow (c : MsrDefs) (s : Machine) (t : Nat)
    (h : Programs c s t) :
    ∃ s' limit rest, set_power_limits c s t = .ok s' ∧
      newWrites s s' =
        Write.wrmsr Msr.MSR_PKG_POWER_LIMIT limit ::
        Write.mchbar32 Mchbar.MCH_PKG_POWER_LIMIT_LO limit.lo ::
        Write.mchbar32 Mchbar.MCH_PKG_POWER_LIMIT_HI limit.hi :: rest ∧
      firstWrmsr Msr.MSR_PKG_POWER_LIMIT rest = none ∧
      firstMchbar Mchbar.MCH_PKG_POWER_LIMIT_LO rest = none ∧
      firstMchbar Mchbar.MCH_PKG_POWER_LIMIT_HI rest = none ∧
      limit.lo =
        (clamp_tdp (sku_tdp s) (sku_min_power s) (sku_max_power s) &&& c.PKG_POWER_LIMIT_MASK) |||
        c.PKG_POWER_LIMIT_EN |||
        u32 ((encode (effective_time (decode (sku_max_time s)) (check_time t)) &&&
          c.PKG_POWER_LIMIT_TIME_MASK) <<< c.PKG_POWER_LIMIT_TIME_SHIFT) ∧
      (c.PKG_POWER_LIMIT_TIME_MASK <<< c.PKG_POWER_LIMIT_TIME_SHIFT < 2 ^ 32 →
        limit.lo =
          (clamp_tdp (sku_tdp s) (sku_min_power s) (sku_max_power s) &&&
            c.PKG_POWER_LIMIT_MASK) |||
          c.PKG_POWER_LIMIT_EN |||
          ((encode (effective_time (decode (sku_max_time s)) (check_time t)) &&&
            c.PKG_POWER_LIMIT_TIME_MASK) <<< c.PKG_POWER_LIMIT_TIME_SHIFT)) := by
  obtain ⟨s', hrun, hw⟩ := set_power_limits_run c s t h
  refine ⟨s', _, _, hrun, hw, ?_, ?_, ?_, ?_, ?_⟩
  · split_ifs <;> simp [firstWrmsr]
  · split_ifs <;> simp [firstMchbar]
  · split_ifs <;> simp [firstMchbar]
  · simp only [limit_lo, Nat.zero_or]
  · intro hfit
    have hle : (encode (effective_time (decode (sku_max_time s)) (check_time t)) &&&
        c.PKG_POWER_LIMIT_TIME_MASK) <<< c.PKG_POWER_LIMIT_TIME_SHIFT ≤
        c.PKG_POWER_LIMIT_TIME_MASK <<< c.PKG_POWER_LIMIT_TIME_SHIFT := by
      rw [Nat.shiftLeft_eq, Nat.shiftLeft_eq]
      exact Nat.mul_le_mul_right _ Nat.and_le_right
    simp only [limit_lo, Nat.zero_or, u32_of_lt (Nat.lt_of_le_of_lt hle hfit)]

/-- C9, at a SKU with tdp 15000 and a requested window of 28 s. -/
theorem long_term_word_and_shadow_at_sample :
    ∃ s' limit rest, set_power_limits upstream (sample 15000 0 0 0) 28 = .ok s' ∧
      newWrites (sample 15000 0 0 0) s' =
        Write.wrmsr Msr.MSR_PKG_POWER_LIMIT limit ::
        Write.mchbar32 Mchbar.MCH_PKG_POWER_LIMIT_LO limit.lo ::
        Write.mchbar32 Mchbar.MCH_PKG_POWER_LIMIT_HI limit.hi :: rest ∧
      firstWrmsr Msr.MSR_PKG_POWER_LIMIT rest = none ∧
      firstMchbar Mchbar.MCH_PKG_POWER_LIMIT_LO rest = none ∧
      firstMchbar Mchbar.MCH_PKG_POWER_LIMIT_HI rest = none ∧
      limit.lo =
        (clamp_tdp (sku_tdp (sample 15000 0 0 0)) (sku_min_power (sample 15000 0 0 0))
          (sku_max_power (sample 15000 0 0 0)) &&& upstream.PKG_POWER_LIMIT_MASK) |||
        upstream.PKG_POWER_LIMIT_EN |||
        u32 ((encode (effective_time (decode (sku_max_time (sample 15000 0 0 0)))
          (check_time 28)) &&&
          upstream.PKG_POWER_LIMIT_TIME_MASK) <<< upstream.PKG_POWER_LIMIT_TIME_SHIFT) ∧
      (upstream.PKG_POWER_LIMIT_TIME_MASK <<< upstream.PKG_POWER_LIMIT_TIME_SHIFT < 2 ^ 32 →
        limit.lo =
          (clamp_tdp (sku_tdp (sample 15000 0 0 0)) (sku_min_power (sample 15000 0 0 0))
            (sku_max_power (sample 15000 0 0 0)) &&& upstream.PKG_POWER_LIMIT_MASK) |||
          upstream.PKG_POWER_LIMIT_EN |||
          ((encode (effective_time (decode (sku_max_time (sample 15000 0 0 0)))
            (check_time 28)) &&&
            upstream.PKG_POWER_LIMIT_TIME_MASK) <<< upstream.PKG_POWER_LIMIT_TIME_SHIFT)) :=
  long_term_word_and_shadow upstream (sample 15000 0 0 0) 28 (by decide)

/-- C10, counterexample: a SKU register with tdp 0 and min_power 5 (no
max_power) makes the run write 5 in the long-term power field and 6 in the
short-term one, not 0. -/
theorem zero_tdp_raised_to_min_power :
    sku_tdp (sample 0 5 0 0) = 0 ∧ sku_min_power (sample 0 5 0 0) = 5 ∧
    (pkg_limit_written upstream (sample 0 5 0 0) 28).map
      (fun limit => (limit.lo &&& upstream.PKG_POWER_LIMIT_MASK,
        limit.hi &&& upstream.PKG_POWER_LIMIT_MASK)) = some (5, 6) := by
  decide

/-- C10, amended: when the limits are programmed for a SKU register whose tdp
field is zero, both halves are written with the enable bit set and the
long-term power field is the zero tdp after clamping; with a zero min_power
field as well (whatever max_power) both power fields are 0. -/
theorem zero_tdp_writes_zero_limits (c : MsrDefs) (s : Machine) (t : Nat) (hc : c.layout)
    (h : Programs c s t) (htdp : sku_tdp s = 0) :
    ∃ limit, pkg_limit_written c s t = some limit ∧
      limit.lo &&& c.PKG_POWER_LIMIT_EN = c.PKG_POWER_LIMIT_EN ∧
      limit.hi &&& c.PKG_POWER_LIMIT_EN = c.PKG_POWER_LIMIT_EN ∧
      c.PKG_POWER_LIMIT_EN ≠ 0 ∧
      limit.lo &&& c.PKG_POWER_LIMIT_MASK = clamp_tdp 0 (sku_min_power s) (sku_max_power s) ∧
      (sku_min_power s = 0 →
        limit.lo &&& c.PKG_POWER_LIMIT_MASK = 0 ∧ limit.hi &&& c.PKG_POWER_LIMIT_MASK = 0) := by
  refine ⟨_, pkg_limit_written_eq c s t h, ?_⟩
  have hlt := clamped_lt s
  simp only [limit_lo_power_field hc, limit_lo_enable hc, limit_hi_enable hc,
    limit_hi_power_field hc, and_7fff_of_lt hlt]
  rw [htdp]
  refine ⟨trivial, trivial, ?_, rfl, ?_⟩
  · rw [hc.2.1]
    decide
  · intro hmin
    rw [hmin]
    have h0 : clamp_tdp 0 0 (sku_max_power s) = 0 := by
      unfold clamp_tdp
      simp
    rw [h0]
    decide

/-- C10, amended, at a SKU register with tdp 0, min_power 0 and max_power 40. -/
theorem zero_tdp_writes_zero_limits_at_sample :
    (∃ limit, pkg_limit_written upstream (sample 0 0 40 0) 28 = some limit ∧
      limit.lo &&& upstream.PKG_POWER_LIMIT_EN = upstream.PKG_POWER_LIMIT_EN ∧
      limit.hi &&& upstream.PKG_POWER_LIMIT_EN = upstream.PKG_POWER_LIMIT_EN ∧
      upstream.PKG_POWER_LIMIT_EN ≠ 0 ∧
      limit.lo &&& upstream.PKG_POWER_LIMIT_MASK =
        clamp_tdp 0 (sku_min_power (sample 0 0 40 0)) (sku_max_power (sample 0 0 40 0)) ∧
      (sku_min_power (sample 0 0 40 0) = 0 →
        limit.lo &&& upstream.PKG_POWER_LIMIT_MASK = 0 ∧
        limit.hi &&& upstream.PKG_POWER_LIMIT_MASK = 0)) ∧
    sku_min_power (sample 0 0 40 0) = 0 :=
  ⟨zero_tdp_writes_zero_limits upstream (sample 0 0 40 0) 28 (by decide) (by decide)
    (by decide), by decide⟩

/-! ## The mailbox -/

theorem busy_at_next_tail {c : MailboxDefs} {m : Mailbox} {n : Nat}
    (h : busy_at_next c m (n + 1)) :
    busy_at_next c (m.read_interface.2.udelay delay_step) n := by
  intro i hi
  have := h (i + 1) (by omega)
  simpa [Mailbox.read_interface, Mailbox.udelay, Nat.add_assoc, Nat.add_comm 1 i] using this

theorem polled_step (m : Mailbox) (n d : Nat) :
    (m.read_interface.2.udelay delay_step).polled n d = m.polled (n + 1) (d + 1) := by
  simp [Mailbox.polled, Mailbox.read_interface, Mailbox.udelay, List.replicate_succ,
    Nat.add_assoc, Nat.add_comm 1 n]

/-- The loop entered with `n` iterations left before the budget of 1000 is
reached, the busy bit set at every one of them. -/
theorem pcode_ready_loop_busy (c : MailboxDefs) (n : Nat) :
    ∀ (fuel : Nat) (w : Int) (m : Mailbox), 1 ≤ n → n ≤ fuel → w = 1000 - 10 * (n : Int) →
      busy_at_next c m n → pcode_ready_loop c fuel w m = some (-1, m.polled n n) := by
  induction n with
  | zero => intro fuel w m h; omega
  | succ n ih =>
    intro fuel w m _ hf hw hb
    obtain ⟨fuel, rfl⟩ : ∃ f, fuel = f + 1 := ⟨fuel - 1, by omega⟩
    have h0 : m.interface m.reads &&& c.MAILBOX_RUN_BUSY ≠ 0 := by
      simpa using hb 0 (by omega)
    unfold pcode_ready_loop
    simp only [Mailbox.read_interface, if_neg h0]
    by_cases hn : n = 0
    · subst hn
      have : ¬ (w + (delay_step : Int) < 1000) := by simp [delay_step]; omega
      rw [if_neg this]
      simp [Mailbox.polled, Mailbox.udelay]
    · have : w + (delay_step : Int) < 1000 := by simp [delay_step]; omega
      rw [if_pos this]
      have := ih fuel (w + (delay_step : Int)) (m.read_interface.2.udelay delay_step)
        (by omega) (by omega) (by simp [delay_step]; omega) (busy_at_next_tail hb)
      rw [polled_step] at this
      exact this

/-- The loop entered with `n` iterations left, the busy bit first clear at
the `k`-th read from here. -/
theorem pcode_ready_loop_clear (c : MailboxDefs) (j : Nat) :
    ∀ (n fuel : Nat) (w : Int) (m : Mailbox), j + 1 ≤ n → n ≤ fuel →
      w = 1000 - 10 * (n : Int) → busy_at_next c m j →
      m.interface (m.reads + j) &&& c.MAILBOX_RUN_BUSY = 0 →
      pcode_ready_loop c fuel w m = some (0, m.polled (j + 1) j) := by
  induction j with
  | zero =>
    intro n fuel w m hn hf _ _ h0
    obtain ⟨fuel, rfl⟩ : ∃ f, fuel = f + 1 := ⟨fuel - 1, by omega⟩
    unfold pcode_ready_loop
    simp only [Mailbox.read_interface]
    rw [if_pos (by simpa using h0)]
    simp [Mailbox.polled]
  | succ j ih =>
    intro n fuel w m hn hf hw hb h0
    obtain ⟨fuel, rfl⟩ : ∃ f, fuel = f + 1 := ⟨fuel - 1, by omega⟩
    obtain ⟨n, rfl⟩ : ∃ k, n = k + 1 := ⟨n - 1, by omega⟩
    have hb0 : m.interface m.reads &&& c.MAILBOX_RUN_BUSY ≠ 0 := by
      simpa using hb 0 (by omega)
    unfold pcode_ready_loop
    simp only [Mailbox.read_interface, if_neg hb0]
    have : w + (delay_step : Int) < 1000 := by simp [delay_step]; omega
    rw [if_pos this]
    have h0' : (m.read_interface.2.udelay delay_step).interface
        ((m.read_interface.2.udelay delay_step).reads + j) &&& c.MAILBOX_RUN_BUSY = 0 := by
      simpa [Mailbox.read_interface, Mailbox.udelay, Nat.add_assoc, Nat.add_comm 1 j] using h0
    have := ih n fuel (w + (delay_step : Int)) (m.read_interface.2.udelay delay_step)
      (by omega) (by omega) (by simp [delay_step]; push_cast at hw ⊢; omega)
      (busy_at_next_tail hb) h0'
    rw [polled_step] at this
    exact this

/-- The wait when the busy bit is set at each of the next 100 reads. -/
theorem pcode_ready_busy {c : MailboxDefs} {m : Mailbox} (h : busy_at_next c m 100) :
    pcode_ready c m = some (-1, m.polled 100 100) :=
  pcode_ready_loop_busy c 100 1000 0 m (by omega) (by omega) (by norm_num) h

/-- The wait when the busy bit is first clear at the `k`-th read. -/
theorem pcode_ready_clear {c : MailboxDefs} {m : Mailbox} {k : Nat} (hk : k ≤ 100)
    (h : first_clear_at c m k) : pcode_ready c m = some (0, m.polled k (k - 1)) := by
  obtain ⟨h1, hb, h0⟩ := h
  obtain ⟨j, rfl⟩ : ∃ j, k = j + 1 := ⟨k - 1, by omega⟩
  exact pcode_ready_loop_clear c j 100 1000 0 m (by omega) (by omega) (by norm_num) hb h0

/-- Either the busy bit is set at each of the next `n` reads or it is first
clear at one of them. -/
theorem busy_or_first_clear (c : MailboxDefs) (m : Mailbox) (n : Nat) :
    busy_at_next c m n ∨ ∃ k, k ≤ n ∧ first_clear_at c m k := by
  induction n with
  | zero => exact Or.inl (fun i hi => absurd hi (Nat.not_lt_zero i))
  | succ n ih =>
    rcases ih with hb | ⟨k, hk, hc⟩
    · by_cases h0 : m.interface (m.reads + n) &&& c.MAILBOX_RUN_BUSY = 0
      · exact Or.inr ⟨n + 1, le_refl _, by omega, hb, h0⟩
      · refine Or.inl (fun i hi => ?_)
        by_cases hin : i < n
        · exact hb i hin
        · have : i = n := by omega
          subst this
          exact h0
    · exact Or.inr ⟨k, by omega, hc⟩

/-- The wait always returns, with 0 or -1, and writes nothing. -/
theorem pcode_ready_total (c : MailboxDefs) (m : Mailbox) :
    ∃ r m', pcode_ready c m = some (r, m') ∧ (r = 0 ∨ r = -1) ∧ m'.writes = m.writes ∧
      (r = -1 ↔ busy_at_next c m 100) := by
  rcases busy_or_first_clear c m 100 with hb | ⟨k, hk, hc⟩
  · exact ⟨-1, _, pcode_ready_busy hb, Or.inr rfl, rfl, fun _ => hb, fun _ => rfl⟩
  · refine ⟨0, _, pcode_ready_clear hk hc, Or.inl rfl, rfl, fun h => absurd h (by decide), ?_⟩
    intro hb
    exact absurd hc.2.2 (hb (k - 1) (by have := hc.1; omega))

/-- C11: the wait is bounded. When the busy bit is set at each of the next
100 reads of the command register, pcode_ready returns -1 after exactly those
100 reads and 100 delays of 10 units, 1000 units in all; when the busy bit is
first seen clear at the k-th read, 1 <= k <= 100, it returns 0 after exactly k
reads (and k - 1 delays of 10 units). It writes no register. -/
theorem pcode_ready_bounded (c : MailboxDefs) (m : Mailbox) :
    (busy_at_next c m 100 →
      ∃ m', pcode_ready c m = some (-1, m') ∧ m'.reads = m.reads + 100 ∧
        m'.delays = m.delays ++ List.replicate 100 10 ∧
        (List.replicate 100 10).sum = 1000 ∧ m'.writes = m.writes) ∧
    (∀ k, 1 ≤ k → k ≤ 100 → first_clear_at c m k →
      ∃ m', pcode_ready c m = some (0, m') ∧ m'.reads = m.reads + k ∧
        m'.delays = m.delays ++ List.replicate (k - 1) 10 ∧ m'.writes = m.writes) := by
  constructor
  · intro hb
    exact ⟨_, pcode_ready_busy hb, rfl, rfl, by decide, rfl⟩
  · intro k _ hk hc
    exact ⟨_, pcode_ready_clear hk hc, rfl, rfl, rfl⟩

/-- C11, at a mailbox that stays busy for 100 reads and at one that is busy
for 3 reads and clear at the 4th. -/
theorem pcode_ready_bounded_at_samples :
    (∃ m', pcode_ready upstream_mailbox (mailbox_busy_for (1 <<< 31) 100) = some (-1, m') ∧
      m'.reads = (mailbox_busy_for (1 <<< 31) 100).reads + 100 ∧
      m'.delays = (mailbox_busy_for (1 <<< 31) 100).delays ++ List.replicate 100 10 ∧
      (List.replicate 100 10).sum = 1000 ∧
      m'.writes = (mailbox_busy_for (1 <<< 31) 100).writes) ∧
    (∃ m', pcode_ready upstream_mailbox (mailbox_busy_for (1 <<< 31) 3) = some (0, m') ∧
      m'.reads = (mailbox_busy_for (1 <<< 31) 3).reads + 4 ∧
      m'.delays = (mailbox_busy_for (1 <<< 31) 3).delays ++ List.replicate (4 - 1) 10 ∧
      m'.writes = (mailbox_busy_for (1 <<< 31) 3).writes) :=
  ⟨(pcode_ready_bounded upstream_mailbox (mailbox_busy_for (1 <<< 31) 100)).1 (by decide),
    (pcode_ready_bounded upstream_mailbox (mailbox_busy_for (1 <<< 31) 3)).2 4 (by decide)
      (by decide) (by decide)⟩

theorem busy_at_next_write {c : MailboxDefs} {m : Mailbox} {n : Nat} (r : Mchbar) (v : Nat) :
    busy_at_next c (m.write r v) n ↔ busy_at_next c m n := Iff.rfl

/-- C12: the calibration always returns, and the mailbox registers it writes
are a beginning of the sequence data := 0xffffffff,
command := RUN_BUSY | FSM_MEASURE_INTVL, command := RUN_BUSY | READ_CALIBRATION:
nothing when the first wait times out, the first two (data before command)
when the second wait times out, and all three otherwise, whatever the third
wait does; the data register is written in the first step only. A wait times
out exactly when the busy bit is set at each of its 100 reads. -/
theorem calibrate_writes_in_order (c : MailboxDefs) (m : Mailbox) :
    ∃ m' r1 m1, calibrate_24mhz_bclk c m = some m' ∧ pcode_ready c m = some (r1, m1) ∧
      (r1 < 0 ↔ busy_at_next c m 100) ∧
      (r1 < 0 → m'.writes = m.writes) ∧
      (¬ r1 < 0 → ∃ r2 m2,
        pcode_ready c ((m1.write Mchbar.BIOS_MAILBOX_DATA 0xffffffff).write
          Mchbar.BIOS_MAILBOX_INTERFACE
          (c.MAILBOX_RUN_BUSY ||| c.MAILBOX_BIOS_CMD_FSM_MEASURE_INTVL)) = some (r2, m2) ∧
        (r2 < 0 ↔ busy_at_next c m1 100) ∧
        (r2 < 0 → m'.writes = m.writes ++
          [ Write.mchbar32 Mchbar.BIOS_MAILBOX_DATA 0xffffffff,
            Write.mchbar32 Mchbar.BIOS_MAILBOX_INTERFACE
              (c.MAILBOX_RUN_BUSY ||| c.MAILBOX_BIOS_CMD_FSM_MEASURE_INTVL) ]) ∧
        (¬ r2 < 0 → m'.writes = m.writes ++
          [ Write.mchbar32 Mchbar.BIOS_MAILBOX_DATA 0xffffffff,
            Write.mchbar32 Mchbar.BIOS_MAILBOX_INTERFACE
              (c.MAILBOX_RUN_BUSY ||| c.MAILBOX_BIOS_CMD_FSM_MEASURE_INTVL),
            Write.mchbar32 Mchbar.BIOS_MAILBOX_INTERFACE
              (c.MAILBOX_RUN_BUSY ||| c.MAILBOX_BIOS_CMD_READ_CALIBRATION) ])) := by
  obtain ⟨r1, m1, h1, hr1, hw1, hb1⟩ := pcode_ready_total c m
  have hneg1 : r1 < 0 ↔ busy_at_next c m 100 := by
    rw [← hb1]
    rcases hr1 with h | h <;> subst h <;> decide
  obtain ⟨r2, m2, h2, hr2, hw2, hb2⟩ := pcode_ready_total c
    ((m1.write Mchbar.BIOS_MAILBOX_DATA 0xffffffff).write Mchbar.BIOS_MAILBOX_INTERFACE
      (c.MAILBOX_RUN_BUSY ||| c.MAILBOX_BIOS_CMD_FSM_MEASURE_INTVL))
  have hneg2 : r2 < 0 ↔ busy_at_next c m1 100 := by
    rw [← busy_at_next_write Mchbar.BIOS_MAILBOX_DATA 0xffffffff,
      ← busy_at_next_write Mchbar.BIOS_MAILBOX_INTERFACE
        (c.MAILBOX_RUN_BUSY ||| c.MAILBOX_BIOS_CMD_FSM_MEASURE_INTVL), ← hb2]
    rcases hr2 with h | h <;> subst h <;> decide
  obtain ⟨r3, m3, h3, _, hw3, _⟩ := pcode_ready_total c
    (m2.read_interface.2.write Mchbar.BIOS_MAILBOX_INTERFACE
      (c.MAILBOX_RUN_BUSY ||| c.MAILBOX_BIOS_CMD_READ_CALIBRATION))
  by_cases c1 : r1 < 0
  · refine ⟨m1, r1, m1, ?_, h1, hneg1, fun _ => hw1, fun h => absurd c1 h⟩
    simp [calibrate_24mhz_bclk, h1, c1]
  · by_cases c2 : r2 < 0
    · refine ⟨m2, r1, m1, ?_, h1, hneg1, fun h => absurd h c1, fun _ =>
        ⟨r2, m2, h2, hneg2, fun _ => ?_, fun h => absurd c2 h⟩⟩
      · simp [calibrate_24mhz_bclk, h1, c1, h2, c2]
      · rw [hw2]
        simp [Mailbox.write, hw1]
    · have hw : m3.writes = m.writes ++
          [ Write.mchbar32 Mchbar.BIOS_MAILBOX_DATA 0xffffffff,
            Write.mchbar32 Mchbar.BIOS_MAILBOX_INTERFACE
              (c.MAILBOX_RUN_BUSY ||| c.MAILBOX_BIOS_CMD_FSM_MEASURE_INTVL),
            Write.mchbar32 Mchbar.BIOS_MAILBOX_INTERFACE
              (c.MAILBOX_RUN_BUSY ||| c.MAILBOX_BIOS_CMD_READ_CALIBRATION) ] := by
        rw [hw3]
        simp [Mailbox.write, Mailbox.read_interface, hw2, hw1]
      by_cases c3 : r3 < 0
      · refine ⟨m3, r1, m1, ?_, h1, hneg1, fun h => absurd h c1, fun _ =>
          ⟨r2, m2, h2, hneg2, fun h => absurd h c2, fun _ => hw⟩⟩
        simp [calibrate_24mhz_bclk, h1, c1, h2, c2, h3, c3]
      · refine ⟨m3.read_data.2, r1, m1, ?_, h1, hneg1, fun h => absurd h c1, fun _ =>
          ⟨r2, m2, h2, hneg2, fun h => absurd h c2, fun _ => hw⟩⟩
        simp [calibrate_24mhz_bclk, h1, c1, h2, c2, h3, c3]

/-! ## MP bring-up -/

theorem and_ffff_le (x : Nat) : x &&& 0xffff ≤ 0xffff := Nat.and_le_right

/-- C13: soc_init_cpus sets ht_disabled exactly when the thread count (bits
15:0 of the core/thread-count register) equals the core count (bits 31:16).
When it is set, the remap in the parameters for MP bring-up is
adjust_apic_id_ht_disabled, which maps every index i it can be given (below
num_cpus, and more generally every i whose double is an int) to 2*i whatever
the apic id; when it is not set the remap is a null pointer. With
multiprocessing configured in, these are the parameters mp_init is called
with. -/
theorem ht_disabled_remap (cfg : Config) (env : Collaborators) :
    ((soc_init_cpus cfg env).ht_disabled ≠ 0 ↔
      (env.core_thread_count.lo >>> 0) &&& 0xffff =
        (env.core_thread_count.lo >>> 16) &&& 0xffff) ∧
    ((soc_init_cpus cfg env).ht_disabled ≠ 0 →
      (soc_init_cpus cfg env).mp_params.adjust_apic_id =
        some Func.adjust_apic_id_ht_disabled) ∧
    ((soc_init_cpus cfg env).ht_disabled = 0 →
      (soc_init_cpus cfg env).mp_params.adjust_apic_id = none) ∧
    (cfg.CONFIG_SMP = true →
      Call.mp_init (soc_init_cpus cfg env).mp_params ∈ (soc_init_cpus cfg env).calls) ∧
    (∀ index apic_id : Int, INT_MIN ≤ 2 * index → 2 * index ≤ INT_MAX →
      adjust_apic_id_ht_disabled index apic_id = .ok (2 * index)) ∧
    (∀ index apic_id : Int, 0 ≤ index → index < (soc_init_cpus cfg env).mp_params.num_cpus →
      adjust_apic_id_ht_disabled index apic_id = .ok (2 * index)) := by
  have hgen : ∀ index apic_id : Int, INT_MIN ≤ 2 * index → 2 * index ≤ INT_MAX →
      adjust_apic_id_ht_disabled index apic_id = .ok (2 * index) := by
    intro index apic_id h1 h2
    unfold adjust_apic_id_ht_disabled
    rw [if_pos ⟨h1, h2⟩]
  refine ⟨?_, ?_, ?_, ?_, hgen, ?_⟩
  · simp only [soc_init_cpus]
    by_cases h : (env.core_thread_count.lo >>> 0) &&& 0xffff =
        (env.core_thread_count.lo >>> 16) &&& 0xffff
    · simp [h]
    · have h' : ¬ (((env.core_thread_count.lo >>> 0 &&& 0xffff : Nat) : Int) =
          ((env.core_thread_count.lo >>> 16 &&& 0xffff : Nat) : Int)) := by
        intro hc
        exact h (by exact_mod_cast hc)
      simp [h, h']
  · intro h
    simp only [soc_init_cpus] at h ⊢
    rw [if_pos h]
  · intro h
    simp only [soc_init_cpus] at h ⊢
    rw [if_neg (by simpa using h)]
  · intro h
    simp only [soc_init_cpus, h, if_true]
    split_ifs <;> simp
  · intro index apic_id h0 hlt
    have hn : (soc_init_cpus cfg env).mp_params.num_cpus ≤ 0xffff := by
      simp only [soc_init_cpus]
      exact_mod_cast and_ffff_le _
    apply hgen
    · simp only [INT_MIN]; omega
    · simp only [INT_MAX]; omega

/-- C13, on a part with 4 threads on 4 cores, at index 3. -/
theorem ht_disabled_remap_at_4_of_4 :
    (soc_init_cpus ⟨true, true⟩ (sample_run 4 4 0 0)).ht_disabled ≠ 0 ∧
    (soc_init_cpus ⟨true, true⟩ (sample_run 4 4 0 0)).mp_params.adjust_apic_id =
      some Func.adjust_apic_id_ht_disabled ∧
    Call.mp_init (soc_init_cpus ⟨true, true⟩ (sample_run 4 4 0 0)).mp_params ∈
      (soc_init_cpus ⟨true, true⟩ (sample_run 4 4 0 0)).calls ∧
    adjust_apic_id_ht_disabled 3 7 = .ok (2 * 3) :=
  ⟨by decide,
    (ht_disabled_remap ⟨true, true⟩ (sample_run 4 4 0 0)).2.1 (by decide),
    (ht_disabled_remap ⟨true, true⟩ (sample_run 4 4 0 0)).2.2.2.1 rfl,
    (ht_disabled_remap ⟨true, true⟩ (sample_run 4 4 0 0)).2.2.2.2.2 3 7 (by decide)
      (by decide)⟩

/-- C15, counterexample: with multiprocessing configured in but no SMI
handler, the action of the third record enables SMIs and does not lock SMRAM. -/
theorem third_phase_without_smi_handler_does_not_lock :
    (mp_steps ⟨true, false⟩).length = 3 ∧
    (mp_steps ⟨true, false⟩).get? 2 = some (MP_FR_BLOCK_APS none none (some Func.enable_smis) none) ∧
    enable_smis ⟨true, false⟩ = [Call.southbridge_smm_enable_smi] ∧
    Call.smm_lock ∉ enable_smis ⟨true, false⟩ := by
  decide

/-- C15, amended: with multiprocessing configured in, mp_steps is exactly
three records in this order: a non-blocking one carrying
relocate_and_load_microcode (relocate the SMM handler, then reload the
microcode) for the application cores and for the bootstrap core, a blocking one
carrying mp_initialize_cpu for both (the per-core initialiser cpu_core_init
being the init operation of the CPU device), and a blocking one carrying enable_smis,
which enables SMIs and, when the SMI handler is configured in, locks SMRAM;
soc_init_cpus hands mp_init the list from its first record with num_records
3. -/
theorem flight_plan_records (cfg : Config) (env : Collaborators)
    (hsmp : cfg.CONFIG_SMP = true) :
    mp_steps cfg =
      [ MP_FR_NOBLOCK_APS (some Func.relocate_and_load_microcode) none
          (some Func.relocate_and_load_microcode) none,
        MP_FR_BLOCK_APS (some Func.mp_initialize_cpu) none (some Func.mp_initialize_cpu) none,
        MP_FR_BLOCK_APS none none (some Func.enable_smis) none ] ∧
    (mp_steps cfg).map mp_flight_record.blocking = [false, true, true] ∧
    cpu_dev_ops_init = Func.cpu_core_init ∧
    (∀ microcode_patch, relocate_and_load_microcode microcode_patch =
      [Call.smm_relocate, Call.intel_microcode_load_unlocked microcode_patch]) ∧
    enable_smis cfg = Call.southbridge_smm_enable_smi ::
      (if cfg.CONFIG_HAVE_SMI_HANDLER = true then [Call.smm_lock] else []) ∧
    (soc_init_cpus cfg env).mp_params.flight_plan = mp_steps cfg ∧
    (soc_init_cpus cfg env).mp_params.num_records = 3 ∧
    Call.mp_init (soc_init_cpus cfg env).mp_params ∈ (soc_init_cpus cfg env).calls := by
  obtain ⟨smp, smi⟩ := cfg
  simp only at hsmp
  subst hsmp
  refine ⟨rfl, rfl, rfl, fun _ => rfl, rfl, rfl, rfl, ?_⟩
  simp only [soc_init_cpus, if_true]
  split_ifs <;> simp

/-- C15, amended, with multiprocessing and the SMI handler configured in. -/
theorem flight_plan_records_at_sample :
    mp_steps ⟨true, true⟩ =
      [ MP_FR_NOBLOCK_APS (some Func.relocate_and_load_microcode) none
          (some Func.relocate_and_load_microcode) none,
        MP_FR_BLOCK_APS (some Func.mp_initialize_cpu) none (some Func.mp_initialize_cpu) none,
        MP_FR_BLOCK_APS none none (some Func.enable_smis) none ] ∧
    (mp_steps ⟨true, true⟩).map mp_flight_record.blocking = [false, true, true] ∧
    cpu_dev_ops_init = Func.cpu_core_init ∧
    (∀ microcode_patch, relocate_and_load_microcode microcode_patch =
      [Call.smm_relocate, Call.intel_microcode_load_unlocked microcode_patch]) ∧
    enable_smis ⟨true, true⟩ = Call.southbridge_smm_enable_smi ::
      (if (⟨true, true⟩ : Config).CONFIG_HAVE_SMI_HANDLER = true then [Call.smm_lock] else []) ∧
    (soc_init_cpus ⟨true, true⟩ (sample_run 4 2 0 0)).mp_params.flight_plan =
      mp_steps ⟨true, true⟩ ∧
    (soc_init_cpus ⟨true, true⟩ (sample_run 4 2 0 0)).mp_params.num_records = 3 ∧
    Call.mp_init (soc_init_cpus ⟨true, true⟩ (sample_run 4 2 0 0)).mp_params ∈
      (soc_init_cpus ⟨true, true⟩ (sample_run 4 2 0 0)).calls :=
  flight_plan_records ⟨true, true⟩ (sample_run 4 2 0 0) rfl

/-- C16, counterexample: the last record of mp_steps has a null pointer as
the function for the application cores; enable_smis is the function for the
bootstrap core only, so the two functions of the record are not both
enable_smis. -/
theorem third_phase_has_no_ap_action :
    (mp_steps ⟨true, true⟩).get? 2 =
      some (MP_FR_BLOCK_APS none none (some Func.enable_smis) none) ∧
    (MP_FR_BLOCK_APS none none (some Func.enable_smis) none).ap_call = none ∧
    (MP_FR_BLOCK_APS none none (some Func.enable_smis) none).bsp_call =
      some Func.enable_smis ∧
    ¬ ((MP_FR_BLOCK_APS none none (some Func.enable_smis) none).ap_call =
        some Func.enable_smis ∧
      (MP_FR_BLOCK_APS none none (some Func.enable_smis) none).bsp_call =
        some Func.enable_smis) := by
  decide

/-- C16, amended: in every configuration the last record of mp_steps (the
third one when multiprocessing is configured in) is blocking and carries
enable_smis for the bootstrap core only: its function for the application
cores is a null pointer, so they pass its barrier without an action. -/
theorem last_phase_is_bootstrap_only (cfg : Config) :
    ∃ r, (mp_steps cfg).getLast? = some r ∧
      (cfg.CONFIG_SMP = true → (mp_steps cfg).get? 2 = some r) ∧
      r.blocking = true ∧ r.bsp_call = some Func.enable_smis ∧ r.ap_call = none ∧
      (∀ q ∈ mp_steps cfg, q.ap_call ≠ some Func.enable_smis) := by
  obtain ⟨smp, smi⟩ := cfg
  cases smp <;> cases smi <;>
    exact ⟨MP_FR_BLOCK_APS none none (some Func.enable_smis) none, by decide, by decide,
      by decide, by decide, by decide, by decide⟩

/-- C17, counterexample: a run with multiprocessing and the SMI handler
configured in and successful collaborators makes these calls, in order;
set_power_limits is not among them, and what follows mp_init is set_max_ratio
and then the restore. -/
theorem soc_init_cpus_does_not_call_set_power_limits :
    (soc_init_cpus ⟨true, true⟩ (sample_run 4 2 0 0)).calls =
      [ Call.printk Loglevel.BIOS_DEBUG, Call.x86_setup_fixed_mtrrs,
        Call.x86_setup_var_mtrrs 0x27 2, Call.x86_mtrr_check, Call.initialize_vr_config,
        Call.calibrate_24mhz_bclk, Call.intel_microcode_find, Call.backup_default_smm_area,
        Call.smm_initialize,
        Call.mp_init (soc_init_cpus ⟨true, true⟩ (sample_run 4 2 0 0)).mp_params,
        Call.set_max_ratio, Call.restore_default_smm_area 0x2000 ] ∧
    count_set_power_limits (soc_init_cpus ⟨true, true⟩ (sample_run 4 2 0 0)).calls = 0 ∧
    count_set_power_limits (soc_init_cpus ⟨true, true⟩ (sample_run 4 2 0 0)).calls ≠ 1 := by
  decide

/-- C17, amended: in every run of soc_init_cpus, set_power_limits is not
called; set_max_ratio is called exactly once, after MP bring-up has returned
(whether it failed, which is only logged, or succeeded), and what follows it
is only the restore of the default SMM area, with the address saved before
smm_initialize, when the SMI handler is configured in, and nothing otherwise;
the last conjunct is the whole sequence of calls. -/
theorem calls_after_mp_init (cfg : Config) (env : Collaborators) :
    count_set_power_limits (soc_init_cpus cfg env).calls = 0 ∧
    (soc_init_cpus cfg env).calls.count Call.set_max_ratio = 1 ∧
    (cfg.CONFIG_SMP = true →
      after_mp_init (soc_init_cpus cfg env).calls = some
        ((if env.mp_init ≠ 0 then [Call.printk Loglevel.BIOS_ERR] else []) ++
          Call.set_max_ratio ::
          (if cfg.CONFIG_HAVE_SMI_HANDLER = true then
            [Call.restore_default_smm_area env.backup_default_smm_area] else []))) ∧
    (cfg.CONFIG_SMP = false → after_mp_init (soc_init_cpus cfg env).calls = none) ∧
    (soc_init_cpus cfg env).calls =
      Call.printk Loglevel.BIOS_DEBUG :: bsp_init_before_ap_bringup env ++
        Call.intel_microcode_find ::
        (if cfg.CONFIG_HAVE_SMI_HANDLER = true then [Call.backup_default_smm_area] else []) ++
        Call.smm_initialize ::
        (if env.smm_initialize ≠ 0 then [Call.printk Loglevel.BIOS_CRIT] else []) ++
        (if cfg.CONFIG_SMP = true then
          Call.mp_init (soc_init_cpus cfg env).mp_params ::
            (if env.mp_init ≠ 0 then [Call.printk Loglevel.BIOS_ERR] else [])
         else []) ++
        Call.set_max_ratio ::
        (if cfg.CONFIG_HAVE_SMI_HANDLER = true then
          [Call.restore_default_smm_area env.backup_default_smm_area] else []) := by
  obtain ⟨smp, smi⟩ := cfg
  cases smp <;> cases smi <;> by_cases h1 : env.smm_initialize = 0 <;>
    by_cases h2 : env.mp_init = 0 <;>
    simp [soc_init_cpus, bsp_init_before_ap_bringup, count_set_power_limits, after_mp_init,
      h1, h2]

/-! ## `soc_skip_ucode_update` -/

/-- C18: soc_skip_ucode_update returns nonzero exactly when the
PRMRR-supported bit of the MTRR capability register is set and the current
patch id equals the new patch id minus one in 32-bit unsigned arithmetic (so
that a new id of 0 matches a current id of 0xffffffff); otherwise it returns
0. -/
theorem skip_ucode_update_iff (d : CpuDefs) (s : Machine) (current_patch_id new_patch_id : Nat)
    (hnew : new_patch_id < 2 ^ 32) :
    (soc_skip_ucode_update d s current_patch_id new_patch_id ≠ 0 ↔
      (rdmsr s Msr.MTRRcap_MSR).lo &&& d.PRMRR_SUPPORTED ≠ 0 ∧
        current_patch_id = (new_patch_id + 2 ^ 32 - 1) % 2 ^ 32) ∧
    (¬ ((rdmsr s Msr.MTRRcap_MSR).lo &&& d.PRMRR_SUPPORTED ≠ 0 ∧
        current_patch_id = (new_patch_id + 2 ^ 32 - 1) % 2 ^ 32) →
      soc_skip_ucode_update d s current_patch_id new_patch_id = 0) ∧
    (new_patch_id = 0 → (new_patch_id + 2 ^ 32 - 1) % 2 ^ 32 = 0xffffffff) ∧
    (0 < new_patch_id → (new_patch_id + 2 ^ 32 - 1) % 2 ^ 32 = new_patch_id - 1) := by
  have he : u32 (new_patch_id + (2 ^ 32 - 1)) = (new_patch_id + 2 ^ 32 - 1) % 2 ^ 32 := by
    unfold u32
    congr 1
  unfold soc_skip_ucode_update
  simp only [he]
  refine ⟨?_, ?_, ?_, ?_⟩
  · split_ifs with h
    · exact ⟨fun _ => h, fun _ => by decide⟩
    · exact ⟨fun h0 => absurd rfl h0, fun h' => absurd h' h⟩
  · intro h
    rw [if_neg h]
  · intro h
    subst h
    norm_num
  · intro h
    omega

/-- C18, at a new patch id of 0 and a current patch id of 0xffffffff on a
part with the PRMRR bit set. -/
theorem skip_ucode_update_iff_at_zero :
    soc_skip_ucode_update upstream_cpu (machine_of (all_registers ⟨1 <<< 12, 0⟩))
      0xffffffff 0 ≠ 0 :=
  (skip_ucode_update_iff upstream_cpu (machine_of (all_registers ⟨1 <<< 12, 0⟩))
    0xffffffff 0 (by decide)).1.2 (by decide)

/-! ## The per-core initialisation -/

theorem and_two_pow_ne_zero_iff (x n : Nat) : x &&& 2 ^ n ≠ 0 ↔ x.testBit n = true := by
  constructor
  · intro h
    by_contra hb
    apply h
    apply Nat.eq_of_testBit_eq
    intro i
    simp only [Nat.testBit_and, Nat.testBit_two_pow, Nat.zero_testBit]
    by_cases hi : n = i
    · subst hi
      simp [hb]
    · simp [hi]
  · intro hb h
    have := congrArg (fun y => y.testBit n) h
    simp [Nat.testBit_and, Nat.testBit_two_pow, hb] at this

theorem not32_field_24 : not32 (0xf <<< 24) = (2 ^ 24 - 1) ||| ((2 ^ 4 - 1) <<< 28) := by
  decide

theorem tcc_field_lt (t : Nat) : (t &&& 0xf) <<< 24 < 2 ^ 32 := by
  have h : t &&& 0xf ≤ 0xf := Nat.and_le_right
  rw [Nat.shiftLeft_eq]
  calc (t &&& 0xf) * 2 ^ 24 ≤ 0xf * 2 ^ 24 := Nat.mul_le_mul_right _ h
    _ < 2 ^ 32 := by norm_num

/-- The bits of the low word `configure_thermal_target` writes. -/
theorem thermal_target_bits (lo t j : Nat) :
    (lo &&& not32 (0xf <<< 24) ||| u32 ((t &&& 0xf) <<< 24)).testBit j =
      if j < 24 then lo.testBit j
      else if j < 28 then (t &&& 0xf).testBit (j - 24)
      else if j < 32 then lo.testBit j else false := by
  have h4 : (0xf : Nat) = 2 ^ 4 - 1 := by norm_num
  rw [not32_field_24, u32_of_lt (tcc_field_lt t), h4]
  simp only [Nat.testBit_and, Nat.testBit_or, Nat.testBit_shiftLeft,
    Nat.testBit_two_pow_sub_one]
  by_cases h1 : j < 24
  · have e1 : ¬ (j ≥ 28) := by omega
    have e2 : ¬ (j ≥ 24) := by omega
    simp [h1, e1, e2]
  · by_cases h2 : j < 28
    · have e1 : ¬ (j ≥ 28) := by omega
      have e2 : j ≥ 24 := by omega
      have e3 : j - 24 < 4 := by omega
      simp [h1, h2, e1, e2, e3]
    · by_cases h3 : j < 32
      · have e1 : j ≥ 28 := by omega
        have e2 : j ≥ 24 := by omega
        have e3 : j - 28 < 4 := by omega
        have e4 : ¬ (j - 24 < 4) := by omega
        simp [h1, h2, h3, e1, e2, e3, e4]
      · have e1 : j ≥ 28 := by omega
        have e2 : j ≥ 24 := by omega
        have e3 : ¬ (j - 28 < 4) := by omega
        have e4 : ¬ (j - 24 < 4) := by omega
        simp [h1, h2, h3, e1, e2, e3, e4]

/-- C20: configure_thermal_target writes a register exactly when bit 30 of
the low word of the platform-info register is set and tcc_offset is nonzero.
Then it writes the temperature-target register, once: bits 27:24 of the low
word become tcc_offset & 0xf and every other bit of the low word and the high
word are as they were. Otherwise it writes no register and leaves the state as
it is. -/
theorem thermal_target_write (i : CoreInputs) (s : Machine)
    (hlo : (rdmsr s Msr.MSR_TEMPERATURE_TARGET).lo < 2 ^ 32) :
    (((rdmsr s Msr.MSR_PLATFORM_INFO).lo.testBit 30 = true ∧ i.tcc_offset ≠ 0) →
      ∃ v, newWrites s (configure_thermal_target i s) =
          [Write.wrmsr Msr.MSR_TEMPERATURE_TARGET v] ∧
        (v.lo >>> 24) &&& 0xf = i.tcc_offset &&& 0xf ∧
        (∀ j, j < 24 ∨ 28 ≤ j →
          v.lo.testBit j = (rdmsr s Msr.MSR_TEMPERATURE_TARGET).lo.testBit j) ∧
        v.hi = (rdmsr s Msr.MSR_TEMPERATURE_TARGET).hi ∧
        (∀ r, r ≠ Msr.MSR_TEMPERATURE_TARGET →
          (configure_thermal_target i s).msr r = s.msr r) ∧
        (configure_thermal_target i s).msr Msr.MSR_TEMPERATURE_TARGET = v) ∧
    (¬ ((rdmsr s Msr.MSR_PLATFORM_INFO).lo.testBit 30 = true ∧ i.tcc_offset ≠ 0) →
      newWrites s (configure_thermal_target i s) = [] ∧ configure_thermal_target i s = s) := by
  have hbit : (rdmsr s Msr.MSR_PLATFORM_INFO).lo &&& (1 <<< 30) ≠ 0 ↔
      (rdmsr s Msr.MSR_PLATFORM_INFO).lo.testBit 30 = true := by
    have : (1 <<< 30 : Nat) = 2 ^ 30 := by decide
    rw [this]
    exact and_two_pow_ne_zero_iff _ 30
  constructor
  · rintro ⟨h30, htcc⟩
    have hc : (rdmsr s Msr.MSR_PLATFORM_INFO).lo &&& (1 <<< 30) ≠ 0 ∧ i.tcc_offset ≠ 0 :=
      ⟨hbit.2 h30, htcc⟩
    unfold configure_thermal_target
    simp only [if_pos hc]
    refine ⟨⟨(rdmsr s Msr.MSR_TEMPERATURE_TARGET).lo &&& not32 (0xf <<< 24) |||
        u32 ((i.tcc_offset &&& 0xf) <<< 24), (rdmsr s Msr.MSR_TEMPERATURE_TARGET).hi⟩,
      by simp [newWrites, wrmsr], ?_, ?_, rfl, ?_, by simp [wrmsr]⟩
    · apply Nat.eq_of_testBit_eq
      intro k
      have h4 : (0xf : Nat) = 2 ^ 4 - 1 := by norm_num
      rw [Nat.testBit_and, Nat.testBit_shiftRight, thermal_target_bits]
      nth_rewrite 2 [h4]
      rw [Nat.testBit_two_pow_sub_one]
      by_cases hk : k < 4
      · have e1 : ¬ (24 + k < 24) := by omega
        have e2 : 24 + k < 28 := by omega
        have e3 : 24 + k - 24 = k := by omega
        simp [hk, e1, e2, e3]
      · have hf : (i.tcc_offset &&& 0xf).testBit k = false := by
          rw [h4, Nat.testBit_and, Nat.testBit_two_pow_sub_one]
          simp [hk]
        simp [hk, hf]
    · intro j hj
      rw [thermal_target_bits]
      rcases hj with hj | hj
      · rw [if_pos hj]
      · rw [if_neg (by omega), if_neg (by omega)]
        by_cases h32 : j < 32
        · rw [if_pos h32]
        · rw [if_neg h32]
          symm
          apply Nat.testBit_lt_two_pow
          calc (rdmsr s Msr.MSR_TEMPERATURE_TARGET).lo < 2 ^ 32 := hlo
            _ ≤ 2 ^ j := Nat.pow_le_pow_right (by norm_num) (by omega)
    · intro r hr
      simp [wrmsr, hr]
  · intro hn
    have hc : ¬ ((rdmsr s Msr.MSR_PLATFORM_INFO).lo &&& (1 <<< 30) ≠ 0 ∧ i.tcc_offset ≠ 0) :=
      fun h => hn ⟨hbit.1 h.1, h.2⟩
    unfold configure_thermal_target
    simp only [if_neg hc]
    exact ⟨by simp [newWrites], trivial⟩

/-- C20, at a part with bit 30 of platform info set, a temperature target of
0x12345678 and a tcc_offset of 0x1a. -/
theorem thermal_target_write_at_sample :
    ∃ v, newWrites
        (machine_of (fun r => if r = Msr.MSR_PLATFORM_INFO then ⟨1 <<< 30, 0⟩
          else ⟨0x12345678, 0x9abcdef0⟩))
        (configure_thermal_target ⟨0, 0, 0x1a⟩
          (machine_of (fun r => if r = Msr.MSR_PLATFORM_INFO then ⟨1 <<< 30, 0⟩
            else ⟨0x12345678, 0x9abcdef0⟩))) =
        [Write.wrmsr Msr.MSR_TEMPERATURE_TARGET v] ∧
      (v.lo >>> 24) &&& 0xf = 0x1a &&& 0xf :=
  have h := (thermal_target_write ⟨0, 0, 0x1a⟩
    (machine_of (fun r => if r = Msr.MSR_PLATFORM_INFO then ⟨1 <<< 30, 0⟩
      else ⟨0x12345678, 0x9abcdef0⟩)) (by decide)).1 (by decide)
  ⟨h.choose, h.choose_spec.1, h.choose_spec.2.1⟩

theorem masked_set_idem (x m v : Nat) : (x &&& m ||| v) &&& m ||| v = x &&& m ||| v := by
  apply Nat.eq_of_testBit_eq
  intro k
  simp only [Nat.testBit_and, Nat.testBit_or]
  cases x.testBit k <;> cases m.testBit k <;> cases v.testBit k <;> rfl

theorem or3_idem (x a b c : Nat) : x ||| a ||| b ||| c ||| a ||| b ||| c = x ||| a ||| b ||| c := by
  apply Nat.eq_of_testBit_eq
  intro k
  simp only [Nat.testBit_or]
  cases x.testBit k <;> cases a.testBit k <;> cases b.testBit k <;> cases c.testBit k <;> rfl

theorem and_mask_idem (x m : Nat) : x &&& m &&& m = x &&& m := by
  rw [Nat.and_assoc, Nat.and_self]

theorem or_bit_idem (x a : Nat) : x ||| a ||| a = x ||| a := by
  rw [Nat.or_assoc, Nat.or_self]

theorem wrmsr_msr (s : Machine) (r : Msr) (v : msr_t) :
    (wrmsr s r v).msr = fun q => if q = r then v else s.msr q := rfl

/-- The registers after the loop of `configure_mca` has run over `n` banks. -/
theorem mca_loop_msr (n : Nat) (s : Machine) :
    ((List.range n).foldl (fun s i => wrmsr s (Msr.IA32_MC0_STATUS (i * 4)) ⟨0, 0⟩) s).msr =
      mca_cleared n s.msr := by
  induction n with
  | zero =>
    funext r
    cases r <;> simp [mca_cleared]
  | succ n ih =>
    rw [List.range_succ, List.foldl_append]
    simp only [List.foldl_cons, List.foldl_nil]
    rw [wrmsr_msr, ih]
    funext r
    cases r with
    | IA32_MC0_STATUS offset =>
      simp only [mca_cleared, Msr.IA32_MC0_STATUS.injEq]
      by_cases h1 : offset = n * 4
      · have h2 : offset % 4 = 0 ∧ offset / 4 < n + 1 := by omega
        rw [if_pos h1, if_pos h2]
      · rw [if_neg h1]
        by_cases h3 : offset % 4 = 0 ∧ offset / 4 < n
        · have h4 : offset % 4 = 0 ∧ offset / 4 < n + 1 := by omega
          rw [if_pos h3, if_pos h4]
        · have h4 : ¬ (offset % 4 = 0 ∧ offset / 4 < n + 1) := by omega
          rw [if_neg h3, if_neg h4]
    | _ => simp [mca_cleared]

theorem configure_mca_msr (s : Machine) :
    (configure_mca s).msr = mca_cleared ((s.msr Msr.mcg_cap_msr).lo &&& 0xff) s.msr := by
  unfold configure_mca
  exact mca_loop_msr _ s

theorem configure_mca_read (s : Machine) (r : Msr) (h : ∀ offset, r ≠ Msr.IA32_MC0_STATUS offset) :
    (configure_mca s).msr r = s.msr r := by
  rw [configure_mca_msr]
  cases r <;> first | rfl | exact absurd rfl (h _)

theorem enable_lapic_tpr_msr (s : Machine) :
    (enable_lapic_tpr s).msr = fun q =>
      if q = Msr.MSR_PIC_MSG_CONTROL then
        ⟨(s.msr Msr.MSR_PIC_MSG_CONTROL).lo &&& not32 (1 <<< 10),
          (s.msr Msr.MSR_PIC_MSG_CONTROL).hi⟩
      else s.msr q := rfl

theorem configure_misc_msr (s : Machine) :
    (configure_misc s).msr = fun q =>
      if q = Msr.IA32_PACKAGE_THERM_INTERRUPT then ⟨1 <<< 4, 0⟩
      else if q = Msr.IA32_THERM_INTERRUPT then ⟨0, 0⟩
      else if q = Msr.IA32_MISC_ENABLE then
        ⟨(s.msr Msr.IA32_MISC_ENABLE).lo ||| (1 <<< 0) ||| (1 <<< 3) ||| (1 <<< 16),
          (s.msr Msr.IA32_MISC_ENABLE).hi⟩
      else s.msr q := rfl

theorem configure_thermal_target_msr (i : CoreInputs) (s : Machine) :
    (configure_thermal_target i s).msr = fun q =>
      if q = Msr.MSR_TEMPERATURE_TARGET ∧
          ((s.msr Msr.MSR_PLATFORM_INFO).lo &&& (1 <<< 30) ≠ 0 ∧ i.tcc_offset ≠ 0) then
        ⟨(s.msr Msr.MSR_TEMPERATURE_TARGET).lo &&& not32 (0xf <<< 24) |||
            u32 ((i.tcc_offset &&& 0xf) <<< 24),
          (s.msr Msr.MSR_TEMPERATURE_TARGET).hi⟩
      else s.msr q := by
  unfold configure_thermal_target
  funext q
  dsimp only [rdmsr]
  by_cases hc : (s.msr Msr.MSR_PLATFORM_INFO).lo &&& (1 <<< 30) ≠ 0 ∧ i.tcc_offset ≠ 0
  · rw [if_pos hc]
    by_cases hq : q = Msr.MSR_TEMPERATURE_TARGET
    · rw [if_pos ⟨hq, hc⟩]
      simp [rdmsr, wrmsr, hq]
    · rw [if_neg (fun h => hq h.1)]
      simp [wrmsr, hq]
  · rw [if_neg hc, if_neg (fun h => hc h.2)]

theorem configure_dca_cap_msr (i : CoreInputs) (s : Machine) :
    (configure_dca_cap i s).msr = fun q =>
      if q = Msr.IA32_PLATFORM_DCA_CAP ∧ i.cpuid_1_ecx &&& (1 <<< 18) ≠ 0 then
        ⟨(s.msr Msr.IA32_PLATFORM_DCA_CAP).lo ||| 1, (s.msr Msr.IA32_PLATFORM_DCA_CAP).hi⟩
      else s.msr q := by
  unfold configure_dca_cap
  funext q
  dsimp only [rdmsr]
  by_cases hc : i.cpuid_1_ecx &&& (1 <<< 18) ≠ 0
  · rw [if_pos hc]
    by_cases hq : q = Msr.IA32_PLATFORM_DCA_CAP
    · rw [if_pos ⟨hq, hc⟩]
      simp [rdmsr, wrmsr, hq]
    · rw [if_neg (fun h => hq h.1)]
      simp [wrmsr, hq]
  · rw [if_neg hc, if_neg (fun h => hc h.2)]

theorem set_energy_perf_bias_msr (i : CoreInputs) (policy : Nat) (s : Machine) :
    (set_energy_perf_bias i policy s).msr = fun q =>
      if q = Msr.IA32_ENERGY_PERFORMANCE_BIAS ∧ ¬ (i.cpuid_6_ecx &&& (1 <<< 3) = 0) then
        ⟨(s.msr Msr.IA32_ENERGY_PERFORMANCE_BIAS).lo &&& not32 0xf ||| (policy &&& 0xf),
          (s.msr Msr.IA32_ENERGY_PERFORMANCE_BIAS).hi⟩
      else s.msr q := by
  unfold set_energy_perf_bias
  funext q
  dsimp only [rdmsr]
  by_cases hc : i.cpuid_6_ecx &&& (1 <<< 3) = 0
  · rw [if_pos hc, if_neg (fun h => h.2 hc)]
  · rw [if_neg hc]
    by_cases hq : q = Msr.IA32_ENERGY_PERFORMANCE_BIAS
    · rw [if_pos ⟨hq, hc⟩]
      simp [rdmsr, wrmsr, hq]
    · rw [if_neg (fun h => hq h.1)]
      simp [wrmsr, hq]

set_option maxHeartbeats 1000000 in
/-- The registers `cpu_core_init` leaves are `core_effect` of the registers it
starts from. -/
theorem cpu_core_init_msr (d : CpuDefs) (i : CoreInputs) (s : Machine) :
    (cpu_core_init d i s).msr = core_effect d i s.msr := by
  funext r
  unfold cpu_core_init
  simp only [set_energy_perf_bias_msr, configure_dca_cap_msr, configure_thermal_target_msr,
    configure_misc_msr, enable_lapic_tpr_msr]
  cases r <;> simp [configure_mca_read, core_effect]
  · rw [configure_mca_msr]
    rfl

/-- Applying `core_effect` twice is applying it once. -/
theorem core_effect_idem (d : CpuDefs) (i : CoreInputs) (f : Msr → msr_t) :
    core_effect d i (core_effect d i f) = core_effect d i f := by
  funext r
  cases r <;> simp only [core_effect] <;> (try split_ifs) <;>
    simp_all [masked_set_idem, or3_idem, and_mask_idem, or_bit_idem]

/-- C19: the register effect of the per-core initialisation (configure_mca,
enable_lapic_tpr, configure_misc, configure_thermal_target, configure_dca_cap,
set_energy_perf_bias with the normal policy, in this order) is idempotent: for
fixed CPUID results and configuration, running the sequence twice leaves the
same register state as running it once. -/
theorem cpu_core_init_idempotent (d : CpuDefs) (i : CoreInputs) (s : Machine) :
    (cpu_core_init d i (cpu_core_init d i s)).msr = (cpu_core_init d i s).msr := by
  rw [cpu_core_init_msr, cpu_core_init_msr, core_effect_idem]

/-! ## The barrier of a blocking phase -/

/-- The barrier invariant: when a core has begun the phase after a blocking
phase, every core has completed the blocking phase. -/
theorem flight_step_invariant (plan : List Bool) (cs cs' : List CoreState) (e : FlightEvent)
    (hstep : flight_step plan cs e = some cs')
    (hinv : ∀ i, phase_blocking plan i = true → ∀ a ∈ cs, a.begun (i + 1) = true →
      ∀ b ∈ cs, b.completed i = true) :
    ∀ i, phase_blocking plan i = true → ∀ a ∈ cs', a.begun (i + 1) = true →
      ∀ b ∈ cs', b.completed i = true := by
  intro i hb a ha hbeg b hbm
  cases e with
  | begin c =>
    simp only [flight_step] at hstep
    cases hget : cs.get? c with
    | none => rw [hget] at hstep; cases hstep
    | some st =>
      rw [hget] at hstep
      simp only at hstep
      split_ifs at hstep with hcond
      cases hstep
      have hst : st ∈ cs := List.get?_mem hget
      simp only [Bool.and_eq_true, Bool.not_eq_true', decide_eq_true_eq] at hcond
      obtain ⟨⟨hnr, _⟩, hgate⟩ := hcond
      have hall : ∀ x ∈ cs, x.completed i = true := by
        rcases List.mem_or_eq_of_mem_set ha with ha' | ha'
        · exact hinv i hb a ha' hbeg
        · subst ha'
          simp only [CoreState.begun, Bool.or_eq_true, Bool.and_eq_true,
            decide_eq_true_eq] at hbeg
          rcases hbeg with hlt | ⟨heq, _⟩
          · exact hinv i hb st hst (by simp [CoreState.begun, hlt])
          · simp only [gate_open, Bool.or_eq_true, Bool.and_eq_true, List.all_eq_true,
              decide_eq_true_eq, Bool.not_eq_true'] at hgate
            rcases hgate with hg | ⟨⟨_, hnb⟩, _⟩
            · intro x hx
              have := hg x hx
              simp only [CoreState.completed, decide_eq_true_eq]
              omega
            · rw [heq, Nat.add_sub_cancel, hb] at hnb
              cases hnb
      rcases List.mem_or_eq_of_mem_set hbm with hb' | hb'
      · exact hall b hb'
      · subst hb'
        exact hall st hst
  | finish c =>
    simp only [flight_step] at hstep
    cases hget : cs.get? c with
    | none => rw [hget] at hstep; cases hstep
    | some st =>
      rw [hget] at hstep
      simp only at hstep
      split_ifs at hstep with hrun
      cases hstep
      have hst : st ∈ cs := List.get?_mem hget
      have hall : ∀ x ∈ cs, x.completed i = true := by
        rcases List.mem_or_eq_of_mem_set ha with ha' | ha'
        · exact hinv i hb a ha' hbeg
        · subst ha'
          simp only [CoreState.begun, Bool.or_eq_true, Bool.and_eq_true,
            decide_eq_true_eq] at hbeg
          apply hinv i hb st hst
          simp only [CoreState.begun, Bool.or_eq_true, Bool.and_eq_true, decide_eq_true_eq]
          rcases hbeg with hlt | ⟨_, hr⟩
          · by_cases h : i + 1 < st.phase
            · exact Or.inl h
            · exact Or.inr ⟨by omega, hrun⟩
          · cases hr
      rcases List.mem_or_eq_of_mem_set hbm with hb' | hb'
      · exact hall b hb'
      · subst hb'
        have := hall st hst
        simp only [CoreState.completed, decide_eq_true_eq] at this ⊢
        omega

/-- The barrier invariant is kept along an execution. -/
theorem flight_run_invariant (plan : List Bool) (es : List FlightEvent) :
    ∀ cs cs' : List CoreState, flight_run plan cs es = some cs' →
      (∀ i, phase_blocking plan i = true → ∀ a ∈ cs, a.begun (i + 1) = true →
        ∀ b ∈ cs, b.completed i = true) →
      ∀ i, phase_blocking plan i = true → ∀ a ∈ cs', a.begun (i + 1) = true →
        ∀ b ∈ cs', b.completed i = true := by
  induction es with
  | nil =>
    intro cs cs' hrun hinv
    simp only [flight_run] at hrun
    cases hrun
    exact hinv
  | cons e es ih =>
    intro cs cs' hrun hinv
    simp only [flight_run] at hrun
    cases hstep : flight_step plan cs e with
    | none => rw [hstep] at hrun; cases hrun
    | some mid =>
      rw [hstep] at hrun
      exact ih mid cs' hrun (flight_step_invariant plan cs mid e hstep hinv)

/-- C14: in every execution of the flight plan on any number of cores, under
any interleaving of the cores, when phase i is blocking and some core has begun
the action of phase i+1, every participating core has completed phase i. -/
theorem barrier_property (plan : List Bool) (n : Nat) (es : List FlightEvent)
    (cores : List CoreState) (hrun : flight_run plan (flight_init n) es = some cores)
    (i : Nat) (hblocking : phase_blocking plan i = true)
    (a : CoreState) (ha : a ∈ cores) (hbegun : a.begun (i + 1) = true)
    (b : CoreState) (hb : b ∈ cores) : b.completed i = true := by
  refine flight_run_invariant plan es (flight_init n) cores hrun ?_ i hblocking a ha hbegun b hb
  intro j _ x hx hbeg
  have hx0 : x = ⟨0, false⟩ := (List.mem_replicate.1 hx).2
  subst hx0
  simp [CoreState.begun] at hbeg

/-- C14, on the flight plan of cpu.c with two cores: both relocate, both run
the per-core initialisation, and the first core has begun the third phase. -/
theorem barrier_property_at_mp_steps :
    flight_run (mp_steps_blocking ⟨true, true⟩) (flight_init 2)
      [ FlightEvent.begin 0, FlightEvent.begin 1, FlightEvent.finish 1, FlightEvent.finish 0,
        FlightEvent.begin 1, FlightEvent.begin 0, FlightEvent.finish 0, FlightEvent.finish 1,
        FlightEvent.begin 0 ] = some [⟨2, true⟩, ⟨2, false⟩] ∧
    phase_blocking (mp_steps_blocking ⟨true, true⟩) 1 = true ∧
    (⟨2, true⟩ : CoreState).begun (1 + 1) = true ∧
    (⟨2, false⟩ : CoreState).completed 1 = true :=
  ⟨by decide, by decide, by decide,
    barrier_property (mp_steps_blocking ⟨true, true⟩) 2
      [ FlightEvent.begin 0, FlightEvent.begin 1, FlightEvent.finish 1, FlightEvent.finish 0,
        FlightEvent.begin 1, FlightEvent.begin 0, FlightEvent.finish 0, FlightEvent.finish 1,
        FlightEvent.begin 0 ] [⟨2, true⟩, ⟨2, false⟩] (by decide) 1 (by decide)
      ⟨2, true⟩ (by decide) (by decide) ⟨2, false⟩ (by decide)⟩

/-! ## The subscript of the decode table -/

/-- The `max_time` field is a 7-bit value. -/
theorem sku_max_time_lt (s : Machine) : sku_max_time s < 128 := by
  have h : sku_max_time s ≤ 0x7f := Nat.and_le_right
  omega

/-- C21: the max_time field of the SKU power register is a 7-bit value, and
the decode table has 113 entries; whenever the field is 113 or more and the
run gets as far as the decode table (the capability bit set, the unit field
nonzero), the subscript power_limit_time_msr_to_sec[max_time] is outside the
table, whatever window is requested. -/
theorem max_time_reads_past_decode_table (c : MsrDefs) (s : Machine) (t : Nat)
    (hcap : (rdmsr s Msr.MSR_PLATFORM_INFO).lo &&& c.PLATFORM_INFO_SET_TDP ≠ 0)
    (hunit : sku_unit_field s ≠ 0)
    (hmax : ARRAY_SIZE power_limit_time_msr_to_sec ≤ sku_max_time s) :
    ARRAY_SIZE power_limit_time_msr_to_sec = 113 ∧
    113 ≤ sku_max_time s ∧ sku_max_time s < 128 ∧
    index power_limit_time_msr_to_sec (sku_max_time s) = .error Fault.array_index ∧
    set_power_limits c s t = .error Fault.array_index := by
  have hout : ¬ (sku_max_time s < ARRAY_SIZE power_limit_time_msr_to_sec) := by omega
  have hidx : index power_limit_time_msr_to_sec (sku_max_time s) = .error Fault.array_index := by
    unfold index
    rw [if_neg hout]
  refine ⟨ARRAY_SIZE_msr_to_sec, ?_, sku_max_time_lt s, hidx, ?_⟩
  · rw [← ARRAY_SIZE_msr_to_sec]
    exact hmax
  · obtain ⟨pu, hpu, hpu0⟩ := power_unit_defined _ hunit
    have h3 : ∀ x, udiv x pu = .ok (x / pu) := fun x => udiv_ok x hpu0
    unfold sku_max_time at hidx
    unfold set_power_limits
    dsimp only
    rw [if_neg hcap, hpu]
    simp only [Except.bind, h3, hidx]

/-- C21, at a SKU power register whose max_time field is 0x71 (113), with a
requested window of 28 s. -/
theorem max_time_reads_past_decode_table_at_0x71 :
    sku_max_time (sample 15000 0 0 0x71) = 0x71 ∧
    ARRAY_SIZE power_limit_time_msr_to_sec = 113 ∧
    113 ≤ sku_max_time (sample 15000 0 0 0x71) ∧ sku_max_time (sample 15000 0 0 0x71) < 128 ∧
    index power_limit_time_msr_to_sec (sku_max_time (sample 15000 0 0 0x71)) =
      .error Fault.array_index ∧
    set_power_limits upstream (sample 15000 0 0 0x71) 28 = .error Fault.array_index :=
  ⟨by decide,
    max_time_reads_past_decode_table upstream (sample 15000 0 0 0x71) 28 (by decide)
      (by decide) (by decide)⟩

end Skylake
